import Mathlib

/-!
# The routes of `backend/server.cjs`

A shallow embedding of `src/backend/server.cjs`: the `/api/generate-plan`
handler (the fence-stripping normalisation of the model's raw text, the call to
`JSON.parse`, the translation of failures into HTTP responses, the
serialisation of the plan sent and the one call of the external service), the
prompt builders `createPlanPrompt` and the image prompt, and the
`/api/export-pdf` handler with `generatePlanHTML`.

JavaScript strings are sequences of UTF-16 code units, so a string is a list of
natural numbers here.  The built-ins the handler calls (`trim`, `startsWith`,
`lastIndexOf`, `substring`, `includes`, `JSON.parse`) are embedded after
ECMA-262; everything else is a transcription of the handler's own statements.
-/

namespace FitnessPlan

/-! ## JavaScript strings -/

/-- A JavaScript string: its UTF-16 code units, in order. -/
abbrev JSString := List Nat

/-- The code units of one Unicode scalar value (a surrogate pair above the BMP). -/
def utf16Char (c : Char) : JSString :=
  if c.toNat < 0x10000 then [c.toNat]
  else [0xD800 + (c.toNat - 0x10000) / 0x400, 0xDC00 + (c.toNat - 0x10000) % 0x400]

/-- The JavaScript string written by a source literal. -/
def utf16 (s : String) : JSString :=
  (s.toList.map utf16Char).flatten

/-- The code units `String.prototype.trim` strips: ECMA-262 `WhiteSpace`
(TAB, VT, FF, ZWNBSP and the space separators) and `LineTerminator`
(LF, CR, LS, PS). -/
def trimUnits : List Nat :=
  [0x09, 0x0A, 0x0B, 0x0C, 0x0D, 0x20, 0xA0, 0x1680,
   0x2000, 0x2001, 0x2002, 0x2003, 0x2004, 0x2005, 0x2006, 0x2007, 0x2008, 0x2009, 0x200A,
   0x2028, 0x2029, 0x202F, 0x205F, 0x3000, 0xFEFF]

/-- Whether `trim` strips this code unit. -/
def isTrimUnit (c : Nat) : Bool :=
  trimUnits.contains c

/-- The method `String.prototype.trimStart`. -/
def trimStart (s : JSString) : JSString :=
  s.dropWhile isTrimUnit

/-- The method `String.prototype.trimEnd`. -/
def trimEnd (s : JSString) : JSString :=
  s.rdropWhile isTrimUnit

/-- The method `String.prototype.trim`: white space and line terminators are
removed from both ends. -/
def trim (s : JSString) : JSString :=
  trimEnd (trimStart s)

/-- The method `String.prototype.startsWith` (no position argument). -/
def startsWith (s searchString : JSString) : Bool :=
  searchString.isPrefixOf s

/-- The method `String.prototype.includes` (no position argument): whether
`searchString` occurs at some index of `s`. -/
def includes : JSString → JSString → Bool
  | [], searchString => searchString.isPrefixOf []
  | c :: cs, searchString => searchString.isPrefixOf (c :: cs) || includes cs searchString

/-- The downward search of `StringLastIndexOf`: the greatest index `i ≤ k` at
which `searchString` occurs in `s`, or `-1`. -/
def lastIndexOfFrom (s searchString : JSString) : Nat → Int
  | 0 => if searchString.isPrefixOf s then 0 else -1
  | k + 1 =>
    if searchString.isPrefixOf (s.drop (k + 1)) then ((k + 1 : Nat) : Int)
    else lastIndexOfFrom s searchString k

/-- The method `String.prototype.lastIndexOf` (no position argument): the index
of the last occurrence of `searchString` in `s`, or `-1` when there is none. -/
def lastIndexOf (s searchString : JSString) : Int :=
  if s.length < searchString.length then -1
  else lastIndexOfFrom s searchString (s.length - searchString.length)

/-- The method `String.prototype.substring`: both arguments are clamped to
`[0, length]` and swapped when the first exceeds the second. -/
def substring (s : JSString) (start finish : Int) : JSString :=
  let finalStart := min start.toNat s.length
  let finalEnd := min finish.toNat s.length
  let lo := min finalStart finalEnd
  let hi := max finalStart finalEnd
  (s.drop lo).take (hi - lo)

/-! ## `JSON.parse`

The JSON grammar of ECMA-404, as `JSON.parse` applies it: a lexer that reads the
text one code unit at a time, and a parser over the token stream.  A number is
kept as its literal (the IEEE-754 value JavaScript computes is a function of it)
and an object as its members in order of first appearance, a repeated key
overwriting the earlier value.
-/

/-- A decoded JSON value. -/
inductive Json where
  | null
  | bool (b : Bool)
  | num (literal : JSString)
  | str (s : JSString)
  | arr (elements : List Json)
  | obj (members : List (JSString × Json))

/-- The tokens of the JSON grammar. -/
inductive Token where
  | lbrace | rbrace | lbracket | rbracket | colon | comma
  | str (s : JSString)
  | num (literal : JSString)
  | true | false | null
  deriving DecidableEq

/-- The three literal names of the grammar. -/
inductive Keyword where
  | true | false | null
  deriving DecidableEq

/-- The code units of a literal name. -/
def Keyword.units : Keyword → JSString
  | .true => utf16 "true"
  | .false => utf16 "false"
  | .null => utf16 "null"

/-- The token of a literal name. -/
def Keyword.token : Keyword → Token
  | .true => .true
  | .false => .false
  | .null => .null

/-- Where the lexer stands inside a number literal. -/
inductive NumState where
  | minus   -- after `-`: a digit must follow
  | zero    -- after a leading `0`
  | int     -- inside the integer digits
  | dot     -- after `.`: a digit must follow
  | frac    -- inside the fraction digits
  | e       -- after `e` or `E`: a sign or a digit must follow
  | esign   -- after the exponent sign: a digit must follow
  | exp     -- inside the exponent digits
  deriving DecidableEq

/-- Where the lexer stands in the text. -/
inductive LexMode where
  | top                                        -- between tokens
  | lit (kw : Keyword) (pos : Nat)             -- inside a literal name, `pos` units read
  | str (acc : JSString)                       -- inside a string
  | esc (acc : JSString)                       -- after a backslash
  | uni (acc : JSString) (k : Nat) (v : Nat)   -- after `\u` and `k` hex digits of value `v`
  | num (st : NumState) (acc : JSString)       -- inside a number
  deriving DecidableEq

/-- JSON white space: TAB, LF, CR and SPACE. -/
def isJsonWs (c : Nat) : Bool :=
  c = 0x09 || c = 0x0A || c = 0x0D || c = 0x20

/-- A decimal digit `0`-`9`. -/
def isDigit (c : Nat) : Bool :=
  0x30 ≤ c && c ≤ 0x39

/-- The value of a hexadecimal digit. -/
def hexVal (c : Nat) : Option Nat :=
  if 0x30 ≤ c ∧ c ≤ 0x39 then some (c - 0x30)
  else if 0x41 ≤ c ∧ c ≤ 0x46 then some (c - 0x41 + 10)
  else if 0x61 ≤ c ∧ c ≤ 0x66 then some (c - 0x61 + 10)
  else none

/-- One code unit read between tokens: the next mode and the tokens completed. -/
def stepTop (c : Nat) : Option (LexMode × List Token) :=
  if isJsonWs c then some (.top, [])
  else if c = 0x7B then some (.top, [.lbrace])
  else if c = 0x7D then some (.top, [.rbrace])
  else if c = 0x5B then some (.top, [.lbracket])
  else if c = 0x5D then some (.top, [.rbracket])
  else if c = 0x3A then some (.top, [.colon])
  else if c = 0x2C then some (.top, [.comma])
  else if c = 0x22 then some (.str [], [])
  else if c = 0x2D then some (.num .minus [c], [])
  else if c = 0x30 then some (.num .zero [c], [])
  else if isDigit c then some (.num .int [c], [])
  else if c = 0x74 then some (.lit .true 1, [])
  else if c = 0x66 then some (.lit .false 1, [])
  else if c = 0x6E then some (.lit .null 1, [])
  else none

/-- The unit `c` ends the number literal `acc` and is then read between tokens. -/
def endNumber (acc : JSString) (c : Nat) : Option (LexMode × List Token) :=
  (stepTop c).map fun r => (r.1, Token.num acc :: r.2)

/-- One code unit read inside a number literal. -/
def stepNum (st : NumState) (acc : JSString) (c : Nat) : Option (LexMode × List Token) :=
  match st with
  | .minus =>
    if c = 0x30 then some (.num .zero (acc ++ [c]), [])
    else if isDigit c then some (.num .int (acc ++ [c]), [])
    else none
  | .zero =>
    if c = 0x2E then some (.num .dot (acc ++ [c]), [])
    else if c = 0x65 ∨ c = 0x45 then some (.num .e (acc ++ [c]), [])
    else endNumber acc c
  | .int =>
    if isDigit c then some (.num .int (acc ++ [c]), [])
    else if c = 0x2E then some (.num .dot (acc ++ [c]), [])
    else if c = 0x65 ∨ c = 0x45 then some (.num .e (acc ++ [c]), [])
    else endNumber acc c
  | .dot =>
    if isDigit c then some (.num .frac (acc ++ [c]), []) else none
  | .frac =>
    if isDigit c then some (.num .frac (acc ++ [c]), [])
    else if c = 0x65 ∨ c = 0x45 then some (.num .e (acc ++ [c]), [])
    else endNumber acc c
  | .e =>
    if c = 0x2B ∨ c = 0x2D then some (.num .esign (acc ++ [c]), [])
    else if isDigit c then some (.num .exp (acc ++ [c]), [])
    else none
  | .esign =>
    if isDigit c then some (.num .exp (acc ++ [c]), []) else none
  | .exp =>
    if isDigit c then some (.num .exp (acc ++ [c]), [])
    else endNumber acc c

/-- The code unit an escape letter stands for (`\u` is handled apart). -/
def escapeUnit (c : Nat) : Option Nat :=
  if c = 0x22 then some 0x22        -- \"
  else if c = 0x5C then some 0x5C   -- \\
  else if c = 0x2F then some 0x2F   -- \/
  else if c = 0x62 then some 0x08   -- \b
  else if c = 0x66 then some 0x0C   -- \f
  else if c = 0x6E then some 0x0A   -- \n
  else if c = 0x72 then some 0x0D   -- \r
  else if c = 0x74 then some 0x09   -- \t
  else none

/-- One code unit read by the lexer. -/
def lexStep (m : LexMode) (c : Nat) : Option (LexMode × List Token) :=
  match m with
  | .top => stepTop c
  | .lit kw pos =>
    if kw.units.get? pos = some c then
      (if pos + 1 = kw.units.length then some (.top, [kw.token]) else some (.lit kw (pos + 1), []))
    else none
  | .str acc =>
    if c = 0x22 then some (.top, [.str acc])
    else if c = 0x5C then some (.esc acc, [])
    else if c < 0x20 then none
    else some (.str (acc ++ [c]), [])
  | .esc acc =>
    if c = 0x75 then some (.uni acc 0 0, [])
    else (escapeUnit c).map fun u => (.str (acc ++ [u]), [])
  | .uni acc k v =>
    match hexVal c with
    | none => none
    | some d =>
      if k = 3 then some (.str (acc ++ [v * 16 + d]), [])
      else some (.uni acc (k + 1) (v * 16 + d), [])
  | .num st acc => stepNum st acc c

/-- The end of the text: only between tokens, or after a complete number. -/
def lexEnd : LexMode → Option (List Token)
  | .top => some []
  | .num .zero acc => some [.num acc]
  | .num .int acc => some [.num acc]
  | .num .frac acc => some [.num acc]
  | .num .exp acc => some [.num acc]
  | _ => none

/-- The tokens of a text read from mode `m`, or `none` when it is not a
sequence of JSON tokens. -/
def lexFrom : LexMode → JSString → Option (List Token)
  | m, [] => lexEnd m
  | m, c :: cs =>
    match lexStep m c with
    | none => none
    | some (m', out) => (lexFrom m' cs).map fun ts => out ++ ts

/-- The tokens of a JSON text. -/
def lex (text : JSString) : Option (List Token) :=
  lexFrom .top text

/-- A container whose closing bracket has not been read yet. -/
inductive Frame where
  | arr (elements : List Json)
  | obj (members : List (JSString × Json)) (key : Option JSString)

/-- What the parser may read next. -/
inductive Expect where
  | value        -- a value
  | firstElem    -- just after `[`: a value or `]`
  | firstKey     -- just after `{`: a key or `}`
  | key          -- after `,` inside an object: a key
  | colon        -- after a key
  | sep          -- after a value inside a container: `,` or the closing bracket
  | done (v : Json)   -- the whole value has been read

/-- The data property `key` of an object is set to `v` (`CreateDataProperty`):
a key already present keeps its place and takes the new value. -/
def setProperty : List (JSString × Json) → JSString → Json → List (JSString × Json)
  | [], key, v => [(key, v)]
  | (k, w) :: ms, key, v =>
    if k = key then (k, v) :: ms else (k, w) :: setProperty ms key v

/-- A value `v` is complete: it is the whole text, the next element of the
enclosing array, or the value of the pending key of the enclosing object. -/
def complete (v : Json) : List Frame → Option (List Frame × Expect)
  | [] => some ([], .done v)
  | .arr es :: st => some (.arr (es ++ [v]) :: st, .sep)
  | .obj ms (some k) :: st => some (.obj (setProperty ms k v) none :: st, .sep)
  | .obj _ none :: _ => none

/-- A token read where a value may start. -/
def startValue (stack : List Frame) : Token → Option (List Frame × Expect)
  | .lbrace => some (.obj [] none :: stack, .firstKey)
  | .lbracket => some (.arr [] :: stack, .firstElem)
  | .str s => complete (.str s) stack
  | .num n => complete (.num n) stack
  | .true => complete (.bool true) stack
  | .false => complete (.bool false) stack
  | .null => complete .null stack
  | _ => none

/-- A token read where a key must stand. -/
def startKey : List Frame → Token → Option (List Frame × Expect)
  | .obj ms none :: st, .str k => some (.obj ms (some k) :: st, .colon)
  | _, _ => none

/-- A closing bracket: the innermost container is complete. -/
def close : List Frame → Token → Option (List Frame × Expect)
  | .arr es :: st, .rbracket => complete (.arr es) st
  | .obj ms none :: st, .rbrace => complete (.obj ms) st
  | _, _ => none

/-- One token read by the parser. -/
def parseStep (stack : List Frame) (e : Expect) (t : Token) : Option (List Frame × Expect) :=
  match e, t with
  | .value, t => startValue stack t
  | .firstElem, .rbracket => close stack .rbracket
  | .firstElem, t => startValue stack t
  | .firstKey, .rbrace => close stack .rbrace
  | .firstKey, t => startKey stack t
  | .key, t => startKey stack t
  | .colon, .colon => some (stack, .value)
  | .colon, _ => none
  | .sep, .comma =>
    match stack with
    | .arr _ :: _ => some (stack, .value)
    | .obj _ none :: _ => some (stack, .key)
    | _ => none
  | .sep, t => close stack t
  | .done _, _ => none

/-- The value a token stream denotes, read from a parser state. -/
def parseFrom : List Frame → Expect → List Token → Option Json
  | _, .done v, [] => some v
  | _, _, [] => none
  | stack, e, t :: ts =>
    match parseStep stack e t with
    | none => none
    | some (stack', e') => parseFrom stack' e' ts

namespace JSON

/-- The function `JSON.parse` on a string: the decoded value, or `none` when it
throws a `SyntaxError`. -/
def parse (text : JSString) : Option Json :=
  match lex text with
  | none => none
  | some ts => parseFrom [] .value ts

end JSON

/-! ## The route `/api/generate-plan` -/

/-- What the awaited call `ai.models.generateContent(...)` (line 110) gives the
handler: a response, of which the handler reads `response.text` (`none` when it
is `undefined`), or a thrown failure, of which it reads `error.message`. -/
inductive GenerateContent where
  | resolved (text : Option JSString)
  | rejected (message : Option JSString)

/-- The body of a response: a plan (in `generatePlan` the value handed to
`res.json`, in `generatePlanResponse` the value of the text sent), or
`{ error, details }`. -/
inductive Body where
  | plan (plan : Json)
  | failure (error : String) (details : Option JSString)

/-- An HTTP response of the handler. -/
structure Response where
  status : Nat
  body : Body

/-- The `console.error` lines of the handler. -/
inductive LogLine where
  | parsingFailed                          -- 'JSON Parsing Failed:', parseError.message
  | rawTextReceived (rawText : Option JSString)   -- 'Raw text received:', rawText
  | generationFailed (message : Option JSString)  -- 'Plan Generation Failed ...', error.message

/-- What one request leaves behind: the server log and the response sent. -/
structure Reply where
  log : List LogLine
  response : Response

/-- The value of the variable `jsonString` when it reaches `JSON.parse`
(lines 125-130): the trimmed raw text, with a leading fence and everything from
the last fence on removed. -/
def jsonString (rawText : JSString) : JSString :=
  let jsonString := trim rawText
  if startsWith jsonString (utf16 "```json") then
    trim (substring jsonString 7 (lastIndexOf jsonString (utf16 "```")))
  else if startsWith jsonString (utf16 "```") then
    trim (substring jsonString 3 (lastIndexOf jsonString (utf16 "```")))
  else jsonString

/-- An exception raised inside the inner `try` block. -/
inductive Thrown where
  | typeError     -- `rawText.trim()` on `undefined`
  | syntaxError   -- `JSON.parse` on a text that is not JSON

/-- The inner `try` block (lines 124-132): the plan, or the exception raised. -/
def parsePlan (rawText : Option JSString) : Except Thrown Json :=
  match rawText with
  | none => .error .typeError
  | some raw =>
    match JSON.parse (jsonString raw) with
    | none => .error .syntaxError
    | some plan => .ok plan

/-- The condition `error.message && error.message.includes(marker)`. -/
def messageIncludes (message : Option JSString) (marker : JSString) : Bool :=
  match message with
  | none => false
  | some m => !m.isEmpty && includes m marker

/-- The variable `errorMessage` of the outer `catch` (lines 148-153). -/
def errorMessage (message : Option JSString) : String :=
  if messageIncludes message (utf16 "API key") then
    "Authentication Error: Invalid or missing GEMINI_API_KEY."
  else if messageIncludes message (utf16 "INVALID_ARGUMENT") then
    "Schema Error: Gemini API rejected the request (INVALID_ARGUMENT). Check planSchema."
  else "Internal Server Error. Check API keys and server logs."

/-- The handler of `POST /api/generate-plan` from the point where the awaited
call returns or throws (lines 120-159), up to the arguments of its response
calls: in the reply of status 200, `.plan plan` is the value handed to
`res.json` at line 143.  What the client reads of it, and the exception that
serialising it may raise, are `sendPlan` and `generatePlanResponse` below. -/
def generatePlan : GenerateContent → Reply
  | .resolved rawText =>
    match parsePlan rawText with
    | .ok plan => ⟨[], ⟨200, .plan plan⟩⟩
    | .error _ =>
      ⟨[.parsingFailed, .rawTextReceived rawText],
       ⟨500, .failure "AI output was not parsable JSON. Please try again."
          (some (utf16 "Parsing error on server."))⟩⟩
  | .rejected message =>
    ⟨[.generationFailed message], ⟨500, .failure (errorMessage message) message⟩⟩

/-! ## JavaScript values

The values `express.json()` leaves in `req.body`, and the conversions the
template literals and the guards of the handlers apply to them.  A number is
given by the string `Number::toString` produces for it, which is all the
handlers ask of a number: its text, and whether it is zero or `NaN`.
-/

/-- A JavaScript value born of JSON, or `undefined`. -/
inductive JSValue where
  | undefined
  | null
  | bool (b : Bool)
  | number (text : JSString)
  | string (s : JSString)
  | array (elements : List JSValue)
  | object (members : List (JSString × JSValue))

/-- The own property `key` among the members of an object (`undefined` when
there is none). -/
def ownProperty (key : JSString) : List (JSString × JSValue) → JSValue
  | [] => .undefined
  | (k, v) :: ms => if k = key then v else ownProperty key ms

/-- Whether the members of an object hold an own property `key`. -/
def hasOwnProperty (key : JSString) : List (JSString × JSValue) → Bool
  | [] => false
  | (k, _) :: ms => k = key || hasOwnProperty key ms

namespace JSValue

/-- The abstract operation `ToBoolean`. -/
def toBoolean : JSValue → Bool
  | .undefined => false
  | .null => false
  | .bool b => b
  | .number text => !(text = utf16 "0" || text = utf16 "NaN")
  | .string s => !s.isEmpty
  | .array _ => true
  | .object _ => true

/-- Whether the value is `undefined` or `null`: reading a property of it raises
a `TypeError`. -/
def isNullish : JSValue → Bool
  | .undefined => true
  | .null => true
  | _ => false

/-- Whether the value is `undefined`, `null`, a boolean, a number or a string. -/
def isPrimitive : JSValue → Bool
  | .array _ => false
  | .object _ => false
  | _ => true

/-- The value of `v.key` for a `v` that is not nullish and a `key` that names no
method and no index: the own property of an object, `undefined` otherwise. -/
def prop (v : JSValue) (key : JSString) : JSValue :=
  match v with
  | .object members => ownProperty key members
  | _ => .undefined

mutual

/-- The abstract operation `ToString`.  An array is its elements joined by
commas (`Array.prototype.toString`); an object is `[object Object]`, unless an
own property `toString` hides `Object.prototype.toString`, in which case
`OrdinaryToPrimitive` finds no method that returns a primitive and raises a
`TypeError`. -/
def toString : JSValue → Except Thrown JSString
  | .undefined => .ok (utf16 "undefined")
  | .null => .ok (utf16 "null")
  | .bool true => .ok (utf16 "true")
  | .bool false => .ok (utf16 "false")
  | .number text => .ok text
  | .string s => .ok s
  | .array elements => joinComma elements
  | .object members =>
    if hasOwnProperty (utf16 "toString") members then .error .typeError
    else .ok (utf16 "[object Object]")

/-- The method `Array.prototype.join` with the separator `,`: `undefined` and
`null` elements count as empty strings. -/
def joinComma : List JSValue → Except Thrown JSString
  | [] => .ok []
  | .undefined :: es => joinRest es
  | .null :: es => joinRest es
  | e :: es =>
    match toString e with
    | .error t => .error t
    | .ok first =>
      match joinRest es with
      | .error t => .error t
      | .ok rest => .ok (first ++ rest)

/-- The elements after the first, each behind its comma. -/
def joinRest : List JSValue → Except Thrown JSString
  | [] => .ok []
  | .undefined :: es =>
    match joinRest es with
    | .error t => .error t
    | .ok rest => .ok (utf16 "," ++ rest)
  | .null :: es =>
    match joinRest es with
    | .error t => .error t
    | .ok rest => .ok (utf16 "," ++ rest)
  | e :: es =>
    match toString e with
    | .error t => .error t
    | .ok next =>
      match joinRest es with
      | .error t => .error t
      | .ok rest => .ok (utf16 "," ++ next ++ rest)

end

end JSValue

/-- The template hole `${obj.key}`: the property is read, which raises a
`TypeError` on `undefined` and `null`, and converted to a string. -/
def hole (obj : JSValue) (key : String) : Except Thrown JSString :=
  if obj.isNullish then .error .typeError else (obj.prop (utf16 key)).toString

/-- The template hole `${obj.key || 'placeholder'}`. -/
def holeOr (obj : JSValue) (key : String) (placeholder : String) : Except Thrown JSString :=
  if obj.isNullish then .error .typeError
  else if (obj.prop (utf16 key)).toBoolean then (obj.prop (utf16 key)).toString
  else .ok (utf16 placeholder)

/-! ## Template literals -/

/-- A template literal, or the `join('')` of mapped strings: the parts are
evaluated from left to right and concatenated; the first part that raises an
exception makes the whole raise it. -/
def template : List (Except Thrown JSString) → Except Thrown JSString
  | [] => .ok []
  | .error t :: _ => .error t
  | .ok part :: parts =>
    match template parts with
    | .error t => .error t
    | .ok rest => .ok (part ++ rest)

/-- The template hole `${obj.key.map(f).join('')}`: the property is read, which
raises a `TypeError` on `undefined` and `null`; only an array has a `map`
method, and calling what is not a function raises a `TypeError`. -/
def holeMap (obj : JSValue) (key : String) (f : JSValue → Except Thrown JSString) :
    Except Thrown JSString :=
  if obj.isNullish then .error .typeError
  else
    match obj.prop (utf16 key) with
    | .array elements => template (elements.map f)
    | _ => .error .typeError

/-! ## The prompt builders -/

/-- The text of the template literal of `createPlanPrompt` before its first hole. -/
def promptOpening : JSString :=
  utf16 "You are an expert fitness coach and nutritionist. Generate a personalized, structured 5-day workout plan and a corresponding 5-day diet plan based on the user's details.\n" ++
  utf16 "        User Details: Goal: "

/-- The text of the template literal of `createPlanPrompt` after its last hole. -/
def promptClosing : JSString :=
  utf16 ".\n" ++
  utf16 "        Constraint: The entire response MUST be a single, valid JSON object that strictly adheres to the schema.\n" ++
  utf16 "    "

/-- The function `createPlanPrompt` (lines 94-99). -/
def createPlanPrompt (input : JSValue) : Except Thrown JSString :=
  template
    [.ok promptOpening, hole input "goal",
     .ok (utf16 ", Level: "), hole input "level",
     .ok (utf16 ", Location: "), hole input "location",
     .ok (utf16 ", Diet: "), hole input "diet",
     .ok (utf16 ", Age: "), hole input "age",
     .ok (utf16 ", Gender: "), holeOr input "gender" "N/A",
     .ok (utf16 ", Height: "), holeOr input "height" "N/A",
     .ok (utf16 "cm, Weight: "), holeOr input "weight" "N/A",
     .ok (utf16 "kg, Medical History: "), holeOr input "medicalHistory" "None",
     .ok (utf16 ", Stress Level: "), holeOr input "stressLevel" "N/A",
     .ok promptClosing]

/-- The variable `prompt` of the `/api/generate-image` handler (lines 171-173),
from the `item_name` and `is_exercise` of the request body. -/
def imagePrompt (item_name is_exercise : JSValue) : Except Thrown JSString :=
  if is_exercise.toBoolean then
    template [.ok (utf16 "High-quality, realistic photo of a person performing a \""), item_name.toString, .ok (utf16 "\" in a modern gym. Clear form, no text.")]
  else
    template [.ok (utf16 "High-quality food photography of a \""), item_name.toString, .ok (utf16 "\" meal. Studio lighting, close-up, no text.")]

/-! ## The route `/api/export-pdf` -/

/-- The list item of one exercise (line 255). -/
def exerciseItem (ex : JSValue) : Except Thrown JSString :=
  template
    [.ok (utf16 "\n                                <li><strong>"), hole ex "name",
     .ok (utf16 ":</strong> "), hole ex "sets",
     .ok (utf16 " sets of "), hole ex "reps",
     .ok (utf16 " ("), hole ex "rest_time",
     .ok (utf16 " rest)</li>\n                            ")]

/-- The card of one workout day (lines 251-258). -/
def workoutDay (dayPlan : JSValue) : Except Thrown JSString :=
  template
    [.ok (utf16 "\n                    <div class=\"day-card\">\n                        <h3>"), hole dayPlan "day",
     .ok (utf16 "</h3>\n                        <ul>\n                            "), holeMap dayPlan "exercises" exerciseItem,
     .ok (utf16 "\n                        </ul>\n                    </div>\n                ")]

/-- The list item of one meal (line 269). -/
def mealItem (meal : JSValue) : Except Thrown JSString :=
  template
    [.ok (utf16 "\n                                <li><strong>"), hole meal "type",
     .ok (utf16 ":</strong> "), hole meal "item",
     .ok (utf16 "</li>\n                            ")]

/-- The card of one diet day (lines 265-272). -/
def dietDay (dayPlan : JSValue) : Except Thrown JSString :=
  template
    [.ok (utf16 "\n                    <div class=\"day-card\">\n                        <h3>"), hole dayPlan "day",
     .ok (utf16 "</h3>\n                        <ul>\n                            "), holeMap dayPlan "meals" mealItem,
     .ok (utf16 "\n                        </ul>\n                    </div>\n                ")]

/-- The list item of one tip (line 279). -/
def tipItem (tip : JSValue) : Except Thrown JSString :=
  template [.ok (utf16 "<li>"), tip.toString, .ok (utf16 "</li>")]

/-- The document head and the heading, up to the date (lines 229-244). -/
def htmlHead : JSString :=
  utf16 "\n        <html>\n        <head>\n            <style>\n" ++
  utf16 "                body \x7b font-family: Arial, sans-serif; margin: 30px; color: #333; \x7d\n" ++
  utf16 "                h1 \x7b color: #ff6600; border-bottom: 2px solid #ccc; padding-bottom: 5px; \x7d\n" ++
  utf16 "                h2 \x7b color: #3f51b5; margin-top: 20px; \x7d\n" ++
  utf16 "                .section-card \x7b border: 1px solid #ddd; padding: 15px; border-radius: 8px; margin-bottom: 20px; \x7d\n" ++
  utf16 "                .day-card \x7b margin-bottom: 10px; border-left: 3px solid #00bcd4; padding-left: 10px; \x7d\n" ++
  utf16 "                ul \x7b list-style-type: none; padding-left: 0; \x7d\n" ++
  utf16 "                li \x7b margin-bottom: 5px; font-size: 0.9em; \x7d\n" ++
  utf16 "                .motivation \x7b text-align: center; font-style: italic; color: #ff6600; margin: 25px 0; \x7d\n" ++
  utf16 "            </style>\n        </head>\n        <body>\n" ++
  utf16 "            <h1>💪 Personalized Fitness Plan</h1>\n" ++
  utf16 "            <p>Generated by AI Coach on "

/-- The text between the date and the quote (lines 244-246). -/
def htmlBeforeQuote : JSString :=
  utf16 "</p>\n            \n            <div class=\"motivation\">\""

/-- The text between the quote and the workout days (lines 246-250). -/
def htmlBeforeWorkout : JSString :=
  utf16 "\"</div>\n\n            <h2>🏋️ Workout Plan</h2>\n" ++
  utf16 "            <div class=\"section-card\">\n                "

/-- The text between the workout days and the diet days (lines 259-264). -/
def htmlBeforeDiet : JSString :=
  utf16 "\n            </div>\n\n            <h2>🥗 Diet Plan</h2>\n" ++
  utf16 "            <div class=\"section-card\">\n                "

/-- The text between the diet days and the tips (lines 273-279). -/
def htmlBeforeTips : JSString :=
  utf16 "\n            </div>\n\n            <h2>💡 Coach's Tips</h2>\n" ++
  utf16 "            <div class=\"section-card\">\n                <ul>\n" ++
  utf16 "                    "

/-- The end of the document (lines 279-285). -/
def htmlEnd : JSString :=
  utf16 "\n                </ul>\n            </div>\n\n        </body>\n" ++
  utf16 "        </html>\n    "

/-- The function `generatePlanHTML` (lines 226-287); `today` is the value of
`new Date().toLocaleDateString()`. -/
def generatePlanHTML (today : JSString) (plan : JSValue) : Except Thrown JSString :=
  template
    [.ok htmlHead, .ok today,
     .ok htmlBeforeQuote, hole plan "daily_motivation_quote",
     .ok htmlBeforeWorkout, holeMap plan "workout_plan" workoutDay,
     .ok htmlBeforeDiet, holeMap plan "diet_plan" dietDay,
     .ok htmlBeforeTips, holeMap plan "ai_tips" tipItem,
     .ok htmlEnd]

/-- What the `/api/export-pdf` handler sends: `res.status(status).json({ error })`,
or the headers of `res.writeHead(200, ...)` and the buffer of `res.end`. -/
inductive PdfResponse where
  | json (status : Nat) (error : String)
  | file (contentType : String) (contentLength : Nat) (contentDisposition : String)
      (pdfBuffer : List Nat)

/-- The steps of the `/api/export-pdf` handler that lie behind its guard. -/
inductive PdfStep where
  | generatePlanHTML                  -- the HTML is built (line 297)
  | generatePdf (content : JSString)  -- the external renderer is invoked (line 302)
  | consoleError                      -- 'PDF Export Error:', error

/-- What one export request leaves behind: the steps taken and the response. -/
structure PdfReply where
  steps : List PdfStep
  response : PdfResponse

/-- The handler of `POST /api/export-pdf` (lines 289-316).  `generatePdf` is the
external renderer `html_to_pdf.generatePdf` on the content of the file, `none`
when it rejects. -/
def exportPdf (today : JSString) (generatePdf : JSString → Option (List Nat))
    (planData : JSValue) : PdfReply :=
  if !planData.toBoolean || !(planData.prop (utf16 "workout_plan")).toBoolean then
    ⟨[], .json 400 "Plan data is missing or incomplete."⟩
  else
    match generatePlanHTML today planData with
    | .error _ =>
      ⟨[.generatePlanHTML, .consoleError], .json 500 "Failed to generate and export PDF."⟩
    | .ok content =>
      match generatePdf content with
      | none =>
        ⟨[.generatePlanHTML, .generatePdf content, .consoleError],
         .json 500 "Failed to generate and export PDF."⟩
      | some pdfBuffer =>
        ⟨[.generatePlanHTML, .generatePdf content],
         .file "application/pdf" pdfBuffer.length
           "attachment; filename=\"AI_Fitness_Plan.pdf\"" pdfBuffer⟩

/-! ## The whole route `/api/generate-plan`

The call `res.status(200).json(plan)` (line 143) serialises the plan with
`JSON.stringify` inside the outer `try`, so what the client reads is the value
of the text written, and an exception of the serialiser reaches the outer
`catch`.  A number is held as the literal that wrote it and a literal stands for
the double it rounds to, so a finite number is the same value before and after.
Two things can differ from the decoded value: a number literal too large for a
double has become `Infinity` and is written `null`, and negative zero is
written `0`.  The serialiser is recursive and raises a `RangeError` when the
nesting runs past what the stack of the engine holds; that depth and the texts
of the engine's exception messages are parameters (`Engine`).
-/

/-- The number of a string of decimal digits. -/
def digitsValue (digits : JSString) : Nat :=
  digits.foldl (fun n c => 10 * n + (c - 0x30)) 0

/-- A decimal number `± mantissa × 10 ^ exponent`. -/
structure Decimal where
  negative : Bool
  mantissa : Nat
  exponent : Int

/-- The decimal number a JSON number literal writes. -/
def decimalOf (literal : JSString) : Decimal :=
  let negative := literal.head? = some 0x2D
  let body := if negative then literal.drop 1 else literal
  let intDigits := body.takeWhile isDigit
  let afterInt := body.dropWhile isDigit
  let hasFraction := afterInt.head? = some 0x2E
  let fracDigits := if hasFraction then (afterInt.drop 1).takeWhile isDigit else []
  let afterFrac := if hasFraction then (afterInt.drop 1).dropWhile isDigit else afterInt
  let expNegative := (afterFrac.drop 1).head? = some 0x2D
  let expDigits := (afterFrac.drop 1).filter isDigit
  let exp : Int := if expNegative then -(digitsValue expDigits : Int) else digitsValue expDigits
  { negative := negative
    mantissa := digitsValue (intDigits ++ fracDigits)
    exponent := exp - fracDigits.length }

/-- Whether the magnitude is at least `2 ^ 1024 - 2 ^ 970`, half way between the
largest double and `2 ^ 1024`: the number rounds to `Infinity`. -/
def Decimal.overflows (d : Decimal) : Bool :=
  match d.exponent with
  | .ofNat e => 2 ^ 1024 - 2 ^ 970 ≤ d.mantissa * 10 ^ e
  | .negSucc e => (2 ^ 1024 - 2 ^ 970) * 10 ^ (e + 1) ≤ d.mantissa

/-- Whether the magnitude is at most `2 ^ (-1075)`, half the smallest double:
the number rounds to zero. -/
def Decimal.roundsToZero (d : Decimal) : Bool :=
  match d.exponent with
  | .ofNat _ => d.mantissa = 0
  | .negSucc e => d.mantissa * 2 ^ 1075 ≤ 10 ^ (e + 1)

mutual

/-- The value of the text `JSON.stringify` writes for a decoded value: what the
client reads.  Strings, booleans, `null` and the members of arrays and objects
are kept; a number is kept unless it is not finite (`null`) or negative zero
(`0`). -/
def sentValue : Json → Json
  | .num literal =>
    if (decimalOf literal).overflows then .null
    else if (decimalOf literal).negative && (decimalOf literal).roundsToZero then
      .num (utf16 "0")
    else .num literal
  | .arr elements => .arr (sentElements elements)
  | .obj members => .obj (sentMembers members)
  | v => v

/-- The elements of a serialised array. -/
def sentElements : List Json → List Json
  | [] => []
  | e :: es => sentValue e :: sentElements es

/-- The members of a serialised object. -/
def sentMembers : List (JSString × Json) → List (JSString × Json)
  | [] => []
  | (k, v) :: ms => (k, sentValue v) :: sentMembers ms

end

mutual

/-- The nesting depth of a decoded value: how deep the recursion of the
serialiser goes. -/
def Json.depth : Json → Nat
  | .arr elements => depthElements elements + 1
  | .obj members => depthMembers members + 1
  | _ => 0

/-- The greatest depth among the elements of an array. -/
def depthElements : List Json → Nat
  | [] => 0
  | e :: es => max e.depth (depthElements es)

/-- The greatest depth among the members of an object. -/
def depthMembers : List (JSString × Json) → Nat
  | [] => 0
  | (_, v) :: ms => max v.depth (depthMembers ms)

end

/-- What the handler depends on in the JavaScript engine: the nesting depth up
to which `JSON.stringify` has stack, and the messages of the exceptions the
engine raises for the handler. -/
structure Engine where
  stackLimit : Nat
  rangeErrorMessage : JSString
  typeErrorMessage : JSValue → JSString

/-- The outer `catch` (lines 145-159) on an exception with this `message`. -/
def caught (message : Option JSString) : Reply :=
  ⟨[.generationFailed message], ⟨500, .failure (errorMessage message) message⟩⟩

/-- The call `res.status(200).json(plan)` (line 143), inside the outer `try`:
the plan is serialised and sent, or the serialiser raises a `RangeError`. -/
def sendPlan (engine : Engine) (plan : Json) : Reply :=
  if plan.depth ≤ engine.stackLimit then ⟨[], ⟨200, .plan (sentValue plan)⟩⟩
  else caught (some engine.rangeErrorMessage)

/-- The handler of `POST /api/generate-plan` from the point where the awaited
call returns or throws to the response the client reads (lines 120-159). -/
def generatePlanResponse (engine : Engine) : GenerateContent → Reply
  | .resolved rawText =>
    match parsePlan rawText with
    | .ok plan => sendPlan engine plan
    | .error _ =>
      ⟨[.parsingFailed, .rawTextReceived rawText],
       ⟨500, .failure "AI output was not parsable JSON. Please try again."
          (some (utf16 "Parsing error on server."))⟩⟩
  | .rejected message => caught message

/-- What one request to `/api/generate-plan` does: the prompts with which the
external service was called, in order, and the reply. -/
structure Exchange where
  calls : List JSString
  reply : Reply

/-- The handler of `POST /api/generate-plan` (lines 105-160).  The external
service is `generateContent`: the outcome of its call number `n` (from 0) with
the prompt given.  The handler builds the prompt, which may raise a `TypeError`,
and awaits call number 0; it has no second call. -/
def generatePlanRoute (engine : Engine) (generateContent : Nat → JSString → GenerateContent)
    (userInput : JSValue) : Exchange :=
  match createPlanPrompt userInput with
  | .error _ => ⟨[], caught (some (engine.typeErrorMessage userInput))⟩
  | .ok prompt => ⟨[prompt], generatePlanResponse engine (generateContent 0 prompt)⟩

/-- The schema language of `planSchema`: strings, arrays of items, and objects
with named properties, some of them required. -/
inductive Schema where
  | string
  | array (items : Schema)
  | object (properties : List (String × Schema)) (required : List String)

/-- The constant `planSchema` (lines 33-92), without its descriptions. -/
def planSchema : Schema :=
  .object
    [("workout_plan",
        .array (.object
          [("day", .string),
           ("exercises",
              .array (.object
                [("name", .string), ("sets", .string), ("reps", .string),
                 ("rest_time", .string)]
                ["name", "sets", "reps", "rest_time"]))]
          ["day", "exercises"])),
     ("diet_plan",
        .array (.object
          [("day", .string),
           ("meals",
              .array (.object [("type", .string), ("item", .string)] ["type", "item"]))]
          ["day", "meals"])),
     ("ai_tips", .array .string),
     ("daily_motivation_quote", .string)]
    ["workout_plan", "diet_plan", "ai_tips", "daily_motivation_quote"]

mutual

/-- Whether a decoded value has the shape a schema describes: the type asked
for, every required property, and no member outside the properties. -/
def conforms : Schema → Json → Bool
  | .string, v =>
    match v with
    | .str _ => true
    | _ => false
  | .array items, v =>
    match v with
    | .arr elements => elements.all fun e => conforms items e
    | _ => false
  | .object properties required, v =>
    match v with
    | .obj members =>
      (members.all fun m => conformsProperty properties m.1 m.2) &&
        required.all fun name => members.any fun m => m.1 == utf16 name
    | _ => false

/-- Whether `value` has the shape the properties give to the key `key`. -/
def conformsProperty : List (String × Schema) → JSString → Json → Bool
  | [], _, _ => false
  | (name, schema) :: rest, key, value =>
    if utf16 name = key then conforms schema value else conformsProperty rest key value

end

mutual

/-- The nesting depth of the values a schema describes. -/
def Schema.depth : Schema → Nat
  | .string => 0
  | .array items => items.depth + 1
  | .object properties _ => depthProperties properties + 1

/-- The greatest depth among the properties of an object schema. -/
def depthProperties : List (String × Schema) → Nat
  | [] => 0
  | (_, schema) :: rest => max schema.depth (depthProperties rest)

end

/-- An engine for the examples: stack for a thousand levels of nesting, and
the messages V8 gives. -/
def sampleEngine : Engine where
  stackLimit := 1000
  rangeErrorMessage := utf16 "Maximum call stack size exceeded"
  typeErrorMessage := fun input =>
    if input.isNullish then utf16 "Cannot read properties of undefined (reading 'goal')"
    else utf16 "Cannot convert object to primitive value"

/-! ## Readings of the specification -/

/-- The text before the first occurrence of `searchString` in `s`, all of `s`
when there is none. -/
def beforeFirst (searchString : JSString) : JSString → JSString
  | [] => []
  | c :: cs =>
    if searchString.isPrefixOf (c :: cs) then [] else c :: beforeFirst searchString cs

/-- The fence stripping as the specification words it: the trimmed text between
the opening marker, of `markerLength` code units, and the first fence that
follows it. -/
def betweenMarkerAndFirstFence (markerLength : Nat) (rawText : JSString) : JSString :=
  trim (beforeFirst (utf16 "```") ((trim rawText).drop markerLength))

/-- Whether a decoded value is an object with an own property `key`. -/
def hasProperty (key : JSString) : Json → Bool
  | .obj members => members.any fun m => m.1 == key
  | _ => false

/-- Whether a decoded value has the four top-level fields of a plan. -/
def hasPlanFields (v : Json) : Bool :=
  hasProperty (utf16 "workout_plan") v && hasProperty (utf16 "diet_plan") v &&
    hasProperty (utf16 "ai_tips") v && hasProperty (utf16 "daily_motivation_quote") v

/-- The five attributes of a profile that `createPlanPrompt` prints as they are. -/
def requiredKeys : List String :=
  ["goal", "level", "location", "diet", "age"]

/-- The five attributes of a profile that `createPlanPrompt` prints with a
placeholder. -/
def optionalKeys : List String :=
  ["gender", "height", "weight", "medicalHistory", "stressLevel"]

/-- A profile in the sense of the data model: an object whose ten attributes,
where present, are strings, numbers or other primitive values. -/
def isProfile (input : JSValue) : Bool :=
  match input with
  | .object _ => (requiredKeys ++ optionalKeys).all fun k => (input.prop (utf16 k)).isPrimitive
  | _ => false

/-- The textual form of a value that has one (`ToString` without its
exception). -/
def textOf (v : JSValue) : JSString :=
  match v.toString with
  | .ok t => t
  | .error _ => []

/-- The text printed for an attribute with a placeholder: `v || 'placeholder'`
as a string. -/
def textOr (v : JSValue) (placeholder : String) : JSString :=
  if v.toBoolean then textOf v else utf16 placeholder

/-- The instruction that closes the prompt. -/
def schemaInstruction : JSString :=
  utf16 "The entire response MUST be a single, valid JSON object that strictly adheres to the schema."

/-- The gym framing of an item: `a person performing a "<item>" in a modern gym`. -/
def gymFraming (item : JSString) : JSString :=
  utf16 "a person performing a \"" ++ item ++ utf16 "\" in a modern gym"

/-- The food framing of an item: `food photography of a "<item>" meal`. -/
def foodFraming (item : JSString) : JSString :=
  utf16 "food photography of a \"" ++ item ++ utf16 "\" meal"

/-! ## Strings: trimming and searching -/

theorem utf16_fence : utf16 "```" = [96, 96, 96] := by decide

theorem utf16_fenceJson : utf16 "```json" = [96, 96, 96, 106, 115, 111, 110] := by decide

theorem dropWhile_append_of_all (p : Nat → Bool) (w s : List Nat) (hw : ∀ c ∈ w, p c = true) :
    (w ++ s).dropWhile p = s.dropWhile p := by
  induction w with
  | nil => rfl
  | cons a w ih =>
    have ha : p a = true := hw a (List.mem_cons_self a w)
    simp only [List.cons_append, List.dropWhile_cons, ha, if_true]
    exact ih fun c hc => hw c (List.mem_cons_of_mem a hc)

theorem trimStart_append_left (w s : JSString) (hw : ∀ c ∈ w, isTrimUnit c = true) :
    trimStart (w ++ s) = trimStart s :=
  dropWhile_append_of_all isTrimUnit w s hw

theorem trimEnd_append_right (s w : JSString) (hw : ∀ c ∈ w, isTrimUnit c = true) :
    trimEnd (s ++ w) = trimEnd s := by
  unfold trimEnd List.rdropWhile
  rw [List.reverse_append, dropWhile_append_of_all]
  intro c hc
  exact hw c (List.mem_reverse.mp hc)

theorem trimStart_cons_of_not (c : Nat) (s : JSString) (hc : isTrimUnit c = false) :
    trimStart (c :: s) = c :: s := by
  simp [trimStart, List.dropWhile_cons, hc]

theorem trimEnd_concat_of_not (s : JSString) (c : Nat) (hc : isTrimUnit c = false) :
    trimEnd (s ++ [c]) = s ++ [c] := by
  simp [trimEnd, List.rdropWhile_concat, hc]

theorem trim_append_left (w s : JSString) (hw : ∀ c ∈ w, isTrimUnit c = true) :
    trim (w ++ s) = trim s := by
  unfold trim
  rw [trimStart_append_left w s hw]

theorem trim_append_right (s w : JSString) (hw : ∀ c ∈ w, isTrimUnit c = true) :
    trim (s ++ w) = trim s := by
  induction s with
  | nil =>
    have h := trimStart_append_left w [] hw
    rw [List.append_nil] at h
    show trimEnd (trimStart ([] ++ w)) = trimEnd (trimStart [])
    rw [List.nil_append, h]
  | cons a s ih =>
    cases ha : isTrimUnit a with
    | true =>
      have e1 : trim (a :: s ++ w) = trim (s ++ w) :=
        trim_append_left [a] (s ++ w) (by simpa using ha)
      have e2 : trim (a :: s) = trim s := trim_append_left [a] s (by simpa using ha)
      rw [e1, e2, ih]
    | false =>
      unfold trim
      rw [show a :: s ++ w = a :: (s ++ w) from rfl, trimStart_cons_of_not a (s ++ w) ha,
        trimStart_cons_of_not a s ha]
      exact trimEnd_append_right (a :: s) w hw

/-- A text that begins and ends with units that are not stripped, surrounded by
units that are, trims to itself. -/
theorem trim_surrounded (w0 w3 mid : JSString) (a b : Nat)
    (h0 : ∀ c ∈ w0, isTrimUnit c = true) (h3 : ∀ c ∈ w3, isTrimUnit c = true)
    (ha : isTrimUnit a = false) (hb : isTrimUnit b = false) :
    trim (w0 ++ (a :: (mid ++ [b])) ++ w3) = a :: (mid ++ [b]) := by
  rw [trim_append_right _ w3 h3, trim_append_left w0 _ h0]
  unfold trim
  rw [trimStart_cons_of_not a _ ha]
  have : a :: (mid ++ [b]) = (a :: mid) ++ [b] := rfl
  rw [this]
  exact trimEnd_concat_of_not (a :: mid) b hb

theorem lastIndexOfFrom_of_last (x p y : JSString)
    (hlast : ∀ j, 0 < j → p.isPrefixOf ((p ++ y).drop j) = false) (n : Nat)
    (hn : x.length ≤ n) :
    lastIndexOfFrom (x ++ p ++ y) p n = (x.length : Int) := by
  induction n with
  | zero =>
    have hx : x = [] := List.length_eq_zero.mp (Nat.le_zero.mp hn)
    subst hx
    have : p.isPrefixOf (p ++ y) = true := by
      rw [List.isPrefixOf_iff_prefix]; exact List.prefix_append p y
    simp [lastIndexOfFrom, this]
  | succ n ih =>
    unfold lastIndexOfFrom
    by_cases hx : x.length = n + 1
    · have hd : (x ++ p ++ y).drop (n + 1) = p ++ y := by
        rw [List.append_assoc, ← hx, List.drop_left]
      have : p.isPrefixOf (p ++ y) = true := by
        rw [List.isPrefixOf_iff_prefix]; exact List.prefix_append p y
      rw [hd, this, if_pos rfl, hx]
    · have hle : x.length ≤ n := by omega
      have hd : (x ++ p ++ y).drop (n + 1) = (p ++ y).drop (n + 1 - x.length) := by
        rw [List.append_assoc, List.drop_append_eq_append_drop]
        have : List.drop (n + 1) x = [] := List.drop_eq_nil_of_le (by omega)
        rw [this, List.nil_append]
      rw [hd, hlast (n + 1 - x.length) (by omega)]
      simpa using ih hle

/-- The last occurrence of `p` in `x ++ p ++ y`, when no later one exists, is at
the length of `x`. -/
theorem lastIndexOf_of_last (x p y : JSString)
    (hlast : ∀ j, 0 < j → p.isPrefixOf ((p ++ y).drop j) = false) :
    lastIndexOf (x ++ p ++ y) p = (x.length : Int) := by
  unfold lastIndexOf
  have hlen : ¬ (x ++ p ++ y).length < p.length := by
    simp only [List.length_append]; omega
  rw [if_neg hlen]
  apply lastIndexOfFrom_of_last x p y hlast
  simp only [List.length_append]; omega

theorem substring_middle (x m z : JSString) (a b : Int)
    (ha : a = (x.length : Int)) (hb : b = ((x.length + m.length : Nat) : Int)) :
    substring (x ++ m ++ z) a b = m := by
  subst ha hb
  unfold substring
  simp only [Int.toNat_ofNat, List.length_append]
  have h1 : min x.length (x.length + m.length + z.length) = x.length := by omega
  have h2 : min (x.length + m.length) (x.length + m.length + z.length)
      = x.length + m.length := by omega
  have h3 : min x.length (x.length + m.length) = x.length := by omega
  have h4 : max x.length (x.length + m.length) = x.length + m.length := by omega
  rw [h1, h2, h3, h4, List.append_assoc, List.drop_left]
  have h5 : x.length + m.length - x.length = m.length := by omega
  rw [h5, List.take_left]

/-! ## The lexer and white space -/

theorem trimUnit_induction (P : Nat → Prop) (c : Nat) (hc : isTrimUnit c = true)
    (h : ∀ u ∈ trimUnits, P u) : P c :=
  h c (by simpa [isTrimUnit] using hc)

theorem stepTop_trimUnit (c : Nat) (hc : isTrimUnit c = true) :
    stepTop c = if isJsonWs c = true then some (.top, []) else none :=
  trimUnit_induction
    (fun u => stepTop u = if isJsonWs u = true then some (.top, []) else none) c hc (by decide)

theorem trimUnit_not_number (c : Nat) (hc : isTrimUnit c = true) :
    isDigit c = false ∧ c ≠ 0x30 ∧ c ≠ 0x2E ∧ c ≠ 0x65 ∧ c ≠ 0x45 ∧ c ≠ 0x2B ∧ c ≠ 0x2D :=
  trimUnit_induction
    (fun u => isDigit u = false ∧ u ≠ 0x30 ∧ u ≠ 0x2E ∧ u ≠ 0x65 ∧ u ≠ 0x45 ∧ u ≠ 0x2B ∧ u ≠ 0x2D)
    c hc (by decide)

theorem trimUnit_not_keyword (c : Nat) (hc : isTrimUnit c = true) (kw : Keyword) :
    c ∉ kw.units := by
  have h : c ∉ Keyword.units .true ∧ c ∉ Keyword.units .false ∧ c ∉ Keyword.units .null :=
    trimUnit_induction
      (fun u => u ∉ Keyword.units .true ∧ u ∉ Keyword.units .false ∧ u ∉ Keyword.units .null)
      c hc (by decide)
  cases kw
  · exact h.1
  · exact h.2.1
  · exact h.2.2

theorem endNumber_trimUnit (acc : JSString) (c : Nat) (hc : isTrimUnit c = true) :
    endNumber acc c = if isJsonWs c = true then some (.top, [.num acc]) else none := by
  unfold endNumber
  rw [stepTop_trimUnit c hc]
  split <;> rfl

/-- A stripped unit read in any mode: the lexer rejects it, or it ends a token
the text could also have ended, or it leaves the lexer inside a token. -/
theorem lexStep_trimUnit (m : LexMode) (c : Nat) (hc : isTrimUnit c = true) :
    lexStep m c = none ∨ (∃ out, lexStep m c = some (.top, out) ∧ lexEnd m = some out) ∨
      (∃ m' out, lexStep m c = some (m', out) ∧ lexEnd m' = none) := by
  obtain ⟨hd, h30, h2e, h65, h45, h2b, h2d⟩ := trimUnit_not_number c hc
  have hE : ¬ (c = 0x65 ∨ c = 0x45) := by rintro (h | h) <;> contradiction
  have hS : ¬ (c = 0x2B ∨ c = 0x2D) := by rintro (h | h) <;> contradiction
  cases m with
  | top =>
    simp only [lexStep]
    rw [stepTop_trimUnit c hc]
    by_cases hw : isJsonWs c = true
    · right; left; exact ⟨[], by rw [if_pos hw], rfl⟩
    · left; rw [if_neg hw]
  | lit kw pos =>
    left
    simp only [lexStep]
    rw [if_neg]
    intro h
    exact trimUnit_not_keyword c hc kw (List.get?_mem h)
  | str acc =>
    simp only [lexStep]
    split
    · right; left
      rename_i h
      subst h
      exact absurd hc (by decide)
    · split
      · rename_i h
        subst h
        exact absurd hc (by decide)
      · split
        · left; rfl
        · right; right; exact ⟨_, _, rfl, rfl⟩
  | esc acc =>
    simp only [lexStep]
    split
    · right; right; exact ⟨_, _, rfl, rfl⟩
    · cases escapeUnit c with
      | none => left; rfl
      | some u => right; right; exact ⟨_, _, rfl, rfl⟩
  | uni acc k v =>
    simp only [lexStep]
    cases hexVal c with
    | none => left; rfl
    | some d =>
      by_cases hk : k = 3
      · right; right; simp only [if_pos hk]; exact ⟨_, _, rfl, rfl⟩
      · right; right; simp only [if_neg hk]; exact ⟨_, _, rfl, rfl⟩
  | num st acc =>
    simp only [lexStep]
    have hend := endNumber_trimUnit acc c hc
    cases st <;>
      simp only [stepNum, hd, h30, h2e, hE, hS, if_false, Bool.false_eq_true, hend] <;>
      first
        | (left; trivial)
        | (by_cases hw : isJsonWs c = true
           · right; left; exact ⟨_, by rw [if_pos hw], rfl⟩
           · left; rw [if_neg hw])

theorem lexFrom_cons (m : LexMode) (a : Nat) (s : JSString) :
    lexFrom m (a :: s) =
      match lexStep m a with
      | none => none
      | some (m', out) => (lexFrom m' s).map fun ts => out ++ ts := rfl

/-- A stripped unit at the end of a text the lexer accepts can be left out. -/
theorem lexFrom_concat_trimUnit (c : Nat) (hc : isTrimUnit c = true) (s : JSString) :
    ∀ (m : LexMode) (ts : List Token),
      lexFrom m (s ++ [c]) = some ts → lexFrom m s = some ts := by
  induction s with
  | nil =>
    intro m ts h
    simp only [List.nil_append, lexFrom] at h ⊢
    rcases lexStep_trimUnit m c hc with h0 | ⟨out, h1, h2⟩ | ⟨m', out, h1, h2⟩
    · rw [h0] at h; cases h
    · rw [h1] at h
      simp only [lexEnd, Option.map_some', List.append_nil] at h
      rw [h2, ← h]
    · rw [h1] at h
      simp only [h2, Option.map_none'] at h
      cases h
  | cons a s ih =>
    intro m ts h
    rw [List.cons_append, lexFrom_cons] at h
    rw [lexFrom_cons]
    cases hstep : lexStep m a with
    | none => rw [hstep] at h; cases h
    | some r =>
      obtain ⟨m', out⟩ := r
      rw [hstep] at h
      simp only at h ⊢
      cases hrest : lexFrom m' (s ++ [c]) with
      | none => rw [hrest] at h; cases h
      | some ts' =>
        rw [hrest] at h
        rw [ih m' ts' hrest]
        exact h

/-- A stripped unit at the start of a text the lexer accepts can be left out. -/
theorem lexFrom_cons_trimUnit (c : Nat) (hc : isTrimUnit c = true) (s : JSString)
    (ts : List Token) (h : lexFrom .top (c :: s) = some ts) : lexFrom .top s = some ts := by
  simp only [lexFrom, lexStep] at h
  rw [stepTop_trimUnit c hc] at h
  by_cases hw : isJsonWs c = true
  · rw [if_pos hw] at h
    simpa using h
  · rw [if_neg hw] at h
    cases h

theorem lex_trimStart (s : JSString) (ts : List Token) (h : lex s = some ts) :
    lex (trimStart s) = some ts := by
  induction s with
  | nil => exact h
  | cons a s ih =>
    cases ha : isTrimUnit a with
    | true =>
      have e : trimStart (a :: s) = trimStart s := by
        simp [trimStart, List.dropWhile_cons, ha]
      rw [e]
      exact ih (lexFrom_cons_trimUnit a ha s ts h)
    | false =>
      rw [trimStart_cons_of_not a s ha]
      exact h

theorem lex_trimEnd (s : JSString) (ts : List Token) (h : lex s = some ts) :
    lex (trimEnd s) = some ts := by
  induction s using List.reverseRecOn with
  | nil => exact h
  | append_singleton s a ih =>
    cases ha : isTrimUnit a with
    | true =>
      have e : trimEnd (s ++ [a]) = trimEnd s :=
        trimEnd_append_right s [a] (by simpa using ha)
      rw [e]
      exact ih (lexFrom_concat_trimUnit a ha s .top ts h)
    | false =>
      rw [trimEnd_concat_of_not s a ha]
      exact h

/-- Trimming a text the lexer accepts does not change its tokens. -/
theorem lex_trim (s : JSString) (ts : List Token) (h : lex s = some ts) :
    lex (trim s) = some ts :=
  lex_trimEnd _ ts (lex_trimStart s ts h)

/-- `JSON.parse` accepts the trimmed text whenever it accepts the text, with
the same value. -/
theorem JSON.parse_trim (s : JSString) (v : Json) (h : JSON.parse s = some v) :
    JSON.parse (trim s) = some v := by
  unfold JSON.parse at h ⊢
  cases hl : lex s with
  | none => rw [hl] at h; cases h
  | some ts =>
    rw [hl] at h
    rw [lex_trim s ts hl]
    exact h

/-- No JSON text is empty. -/
theorem JSON.parse_nil : JSON.parse [] = none := rfl

/-- No JSON text begins with a backtick. -/
theorem JSON.parse_backtick (s : JSString) : JSON.parse (96 :: s) = none := rfl

/-- No JSON text begins with the letter `j`. -/
theorem JSON.parse_j (s : JSString) : JSON.parse (106 :: s) = none := rfl

/-! ## The normalisation of the raw text -/

theorem startsWith_fence (t : JSString) (h : startsWith t (utf16 "```") = true) :
    ∃ rest, t = 96 :: 96 :: 96 :: rest := by
  rw [startsWith, utf16_fence, List.isPrefixOf_iff_prefix] at h
  obtain ⟨rest, rfl⟩ := h
  exact ⟨rest, rfl⟩

theorem startsWith_fence_of_fenceJson (t : JSString)
    (h : startsWith t (utf16 "```json") = true) : startsWith t (utf16 "```") = true := by
  rw [startsWith, utf16_fenceJson, List.isPrefixOf_iff_prefix] at h
  obtain ⟨rest, rfl⟩ := h
  rw [startsWith, utf16_fence, List.isPrefixOf_iff_prefix]
  exact ⟨106 :: 115 :: 111 :: 110 :: rest, rfl⟩

/-- A trimmed text that does not begin with a fence reaches the decoder as it is. -/
theorem jsonString_plain (r : JSString) (h : startsWith (trim r) (utf16 "```") = false) :
    jsonString r = trim r := by
  have h7 : startsWith (trim r) (utf16 "```json") = false := by
    cases h' : startsWith (trim r) (utf16 "```json") with
    | false => rfl
    | true => rw [startsWith_fence_of_fenceJson _ h'] at h; cases h
  simp only [jsonString, h7, h, Bool.false_eq_true, if_false]

/-- A text the decoder accepts does not begin with a fence. -/
theorem not_startsWith_fence_of_parse (t : JSString) (v : Json) (h : JSON.parse t = some v) :
    startsWith t (utf16 "```") = false := by
  cases h' : startsWith t (utf16 "```") with
  | false => rfl
  | true =>
    obtain ⟨rest, rfl⟩ := startsWith_fence t h'
    rw [JSON.parse_backtick] at h
    cases h

/-- After `` ```json ``: the decoder is handed the trimmed text up to the last
fence. -/
theorem jsonString_fenceJson (r body tail : JSString)
    (ht : trim r = utf16 "```json" ++ body ++ utf16 "```" ++ tail)
    (hlast : ∀ j, 0 < j → (utf16 "```").isPrefixOf ((utf16 "```" ++ tail).drop j) = false) :
    jsonString r = trim body := by
  have h7 : startsWith (trim r) (utf16 "```json") = true := by
    rw [ht, startsWith, List.isPrefixOf_iff_prefix, List.append_assoc, List.append_assoc]
    exact List.prefix_append _ _
  have hi : lastIndexOf (trim r) (utf16 "```") = ((utf16 "```json" ++ body).length : Int) := by
    rw [ht]
    exact lastIndexOf_of_last (utf16 "```json" ++ body) (utf16 "```") tail hlast
  have hs : substring (trim r) 7 (lastIndexOf (trim r) (utf16 "```")) = body := by
    rw [hi, ht, List.append_assoc (utf16 "```json" ++ body)]
    exact substring_middle (utf16 "```json") body (utf16 "```" ++ tail) 7 _
      (by rw [utf16_fenceJson]; rfl) (by rw [List.length_append])
  simp only [jsonString, h7, if_true, hs]

/-- After a bare fence: the decoder is handed the trimmed text up to the last
fence. -/
theorem jsonString_fenceBare (r body tail : JSString)
    (ht : trim r = utf16 "```" ++ body ++ utf16 "```" ++ tail)
    (hbare : startsWith (trim r) (utf16 "```json") = false)
    (hlast : ∀ j, 0 < j → (utf16 "```").isPrefixOf ((utf16 "```" ++ tail).drop j) = false) :
    jsonString r = trim body := by
  have h3 : startsWith (trim r) (utf16 "```") = true := by
    rw [ht, startsWith, List.isPrefixOf_iff_prefix, List.append_assoc, List.append_assoc]
    exact List.prefix_append _ _
  have hi : lastIndexOf (trim r) (utf16 "```") = ((utf16 "```" ++ body).length : Int) := by
    rw [ht]
    exact lastIndexOf_of_last (utf16 "```" ++ body) (utf16 "```") tail hlast
  have hs : substring (trim r) 3 (lastIndexOf (trim r) (utf16 "```")) = body := by
    rw [hi, ht, List.append_assoc (utf16 "```" ++ body)]
    exact substring_middle (utf16 "```") body (utf16 "```" ++ tail) 3 _
      (by rw [utf16_fence]; rfl) (by rw [List.length_append])
  simp only [jsonString, hbare, h3, Bool.false_eq_true, if_false, if_true, hs]

/-- A closing fence at the very end of the text is the last fence. -/
theorem fence_last_of_nil :
    ∀ j, 0 < j → (utf16 "```").isPrefixOf ((utf16 "```" ++ ([] : JSString)).drop j) = false := by
  intro j hj
  rw [utf16_fence]
  match j, hj with
  | 1, _ => decide
  | 2, _ => decide
  | j + 3, _ => simp

/-- The handler's reply to a raw text whose normalised form decodes. -/
theorem generatePlan_of_parse (r : JSString) (v : Json)
    (h : JSON.parse (jsonString r) = some v) :
    generatePlan (.resolved (some r)) = ⟨[], ⟨200, .plan v⟩⟩ := by
  simp only [generatePlan, parsePlan, h]

/-- The handler's reply to a raw text whose normalised form does not decode. -/
theorem generatePlan_of_parse_none (r : JSString) (h : JSON.parse (jsonString r) = none) :
    generatePlan (.resolved (some r)) =
      ⟨[.parsingFailed, .rawTextReceived (some r)],
       ⟨500, .failure "AI output was not parsable JSON. Please try again."
          (some (utf16 "Parsing error on server."))⟩⟩ := by
  simp only [generatePlan, parsePlan, h]

/-- A raw text that is JSON once trimmed: no fence is stripped and the decoded
value is returned. -/
theorem generatePlan_of_parse_trim (r : JSString) (v : Json) (h : JSON.parse (trim r) = some v) :
    jsonString r = trim r ∧ generatePlan (.resolved (some r)) = ⟨[], ⟨200, .plan v⟩⟩ := by
  have hp := jsonString_plain r (not_startsWith_fence_of_parse _ v h)
  exact ⟨hp, generatePlan_of_parse r v (by rw [hp]; exact h)⟩

theorem fence_not_trimUnit : isTrimUnit 96 = false := by decide

/-- A fenced text surrounded by stripped units trims to the fenced text. -/
theorem trim_fenced (w0 w3 opening body : JSString)
    (h0 : ∀ c ∈ w0, isTrimUnit c = true) (h3 : ∀ c ∈ w3, isTrimUnit c = true) :
    trim (w0 ++ (96 :: 96 :: 96 :: opening) ++ body ++ utf16 "```" ++ w3)
      = (96 :: 96 :: 96 :: opening) ++ body ++ utf16 "```" ++ [] := by
  have e : w0 ++ (96 :: 96 :: 96 :: opening) ++ body ++ utf16 "```" ++ w3
      = w0 ++ (96 :: ((96 :: 96 :: opening) ++ body ++ [96, 96] ++ [96])) ++ w3 := by
    rw [utf16_fence]; simp
  rw [e, trim_surrounded w0 w3 _ 96 96 h0 h3 fence_not_trimUnit fence_not_trimUnit, utf16_fence]
  simp

theorem isPrefixOf_drop_of_not_includes (p : JSString) :
    ∀ (s : JSString), includes s p = false → ∀ j, p.isPrefixOf (s.drop j) = false := by
  intro s
  induction s with
  | nil =>
    intro h j
    simpa [includes] using h
  | cons c cs ih =>
    intro h j
    simp only [includes, Bool.or_eq_false_iff] at h
    cases j with
    | zero => exact h.1
    | succ j => exact ih h.2 j

/-- No fence begins after the first unit of the closing fence: that fence is the
last one. -/
theorem fence_last_of_not_includes (tail : JSString)
    (h : includes ((utf16 "```" ++ tail).drop 1) (utf16 "```") = false) :
    ∀ j, 0 < j → (utf16 "```").isPrefixOf ((utf16 "```" ++ tail).drop j) = false := by
  intro j hj
  obtain ⟨k, rfl⟩ : ∃ k, j = k + 1 := ⟨j - 1, by omega⟩
  have := isPrefixOf_drop_of_not_includes (utf16 "```") _ h k
  rwa [List.drop_drop, Nat.add_comm] at this

theorem includes_ne_nil (m p : JSString) (hp : p ≠ []) (h : includes m p = true) :
    m.isEmpty = false := by
  cases m with
  | nil =>
    cases p with
    | nil => exact absurd rfl hp
    | cons a p => simp [includes, List.isPrefixOf] at h
  | cons a m => rfl

/-! ## Serialisation -/

theorem sentMembers_any (key : JSString) :
    ∀ ms : List (JSString × Json),
      (sentMembers ms).any (fun m => m.1 == key) = ms.any (fun m => m.1 == key) := by
  intro ms
  induction ms with
  | nil => rfl
  | cons m ms ih =>
    obtain ⟨k, v⟩ := m
    simp only [sentMembers, List.any_cons, ih]

/-- Serialising keeps the properties of an object. -/
theorem hasProperty_sentValue (key : JSString) (v : Json) :
    hasProperty key (sentValue v) = hasProperty key v := by
  cases v with
  | obj ms => simp only [sentValue, hasProperty, sentMembers_any]
  | num literal =>
    simp only [sentValue]
    split
    · rfl
    · split <;> rfl
  | arr es => rfl
  | null => rfl
  | bool b => rfl
  | str t => rfl

theorem hasPlanFields_sentValue (v : Json) : hasPlanFields (sentValue v) = hasPlanFields v := by
  simp only [hasPlanFields, hasProperty_sentValue]

theorem sentElements_of_forall (d : Nat) :
    ∀ es : List Json, (∀ e ∈ es, sentValue e = e ∧ e.depth ≤ d) →
      sentElements es = es ∧ depthElements es ≤ d := by
  intro es
  induction es with
  | nil => intro _; exact ⟨rfl, Nat.zero_le d⟩
  | cons e es ih =>
    intro h
    obtain ⟨h1, h2⟩ := h e (List.mem_cons_self e es)
    obtain ⟨h3, h4⟩ := ih fun x hx => h x (List.mem_cons_of_mem e hx)
    exact ⟨by simp only [sentElements, h1, h3], by simp only [depthElements]; omega⟩

theorem sentMembers_of_forall (d : Nat) :
    ∀ ms : List (JSString × Json), (∀ m ∈ ms, sentValue m.2 = m.2 ∧ m.2.depth ≤ d) →
      sentMembers ms = ms ∧ depthMembers ms ≤ d := by
  intro ms
  induction ms with
  | nil => intro _; exact ⟨rfl, Nat.zero_le d⟩
  | cons m ms ih =>
    intro h
    obtain ⟨k, v⟩ := m
    have hm : sentValue v = v ∧ v.depth ≤ d := h (k, v) (List.mem_cons_self (k, v) ms)
    obtain ⟨h3, h4⟩ := ih fun x hx => h x (List.mem_cons_of_mem (k, v) hx)
    exact ⟨by simp only [sentMembers, h3, hm.1], by simp only [depthMembers]; omega⟩

mutual

/-- A value of the shape of a schema is sent as it is, and is no deeper than
the schema. -/
theorem conforms_sent : ∀ (schema : Schema) (v : Json), conforms schema v = true →
    sentValue v = v ∧ v.depth ≤ schema.depth
  | .string, v, h => by
    cases v <;> first | exact ⟨rfl, Nat.zero_le _⟩ | (simp [conforms] at h)
  | .array items, v, h => by
    cases v with
    | arr es =>
      simp only [conforms, List.all_eq_true] at h
      obtain ⟨h1, h2⟩ := sentElements_of_forall items.depth es
        fun e he => conforms_sent items e (h e he)
      exact ⟨by simp only [sentValue, h1], by simp only [Json.depth, Schema.depth]; omega⟩
    | _ => simp [conforms] at h
  | .object properties required, v, h => by
    cases v with
    | obj ms =>
      simp only [conforms, Bool.and_eq_true, List.all_eq_true] at h
      obtain ⟨h1, h2⟩ := sentMembers_of_forall (depthProperties properties) ms
        fun m hm => conformsProperty_sent properties m.1 m.2 (h.1 m hm)
      exact ⟨by simp only [sentValue, h1], by simp only [Json.depth, Schema.depth]; omega⟩
    | _ => simp [conforms] at h

theorem conformsProperty_sent : ∀ (properties : List (String × Schema)) (key : JSString)
    (v : Json), conformsProperty properties key v = true →
    sentValue v = v ∧ v.depth ≤ depthProperties properties
  | [], _, _, h => by simp [conformsProperty] at h
  | (name, schema) :: rest, key, v, h => by
    simp only [conformsProperty] at h
    by_cases hk : utf16 name = key
    · rw [if_pos hk] at h
      obtain ⟨h1, h2⟩ := conforms_sent schema v h
      exact ⟨h1, by simp only [depthProperties]; omega⟩
    · rw [if_neg hk] at h
      obtain ⟨h1, h2⟩ := conformsProperty_sent rest key v h
      exact ⟨h1, by simp only [depthProperties]; omega⟩

end

/-- The answer to a raw text whose normalised form decodes is the sending of
the decoded value. -/
theorem generatePlanResponse_of_parse (engine : Engine) (r : JSString) (v : Json)
    (h : JSON.parse (jsonString r) = some v) :
    generatePlanResponse engine (.resolved (some r)) = sendPlan engine v := by
  simp only [generatePlanResponse, parsePlan, h]

/-- The answer to a raw text whose normalised form does not decode. -/
theorem generatePlanResponse_of_parse_none (engine : Engine) (r : JSString)
    (h : JSON.parse (jsonString r) = none) :
    generatePlanResponse engine (.resolved (some r)) =
      ⟨[.parsingFailed, .rawTextReceived (some r)],
       ⟨500, .failure "AI output was not parsable JSON. Please try again."
          (some (utf16 "Parsing error on server."))⟩⟩ := by
  simp only [generatePlanResponse, parsePlan, h]

/-- A value of the shape of `planSchema` is sent as it is by an engine with
stack for the depth of the schema. -/
theorem sendPlan_of_conforms (engine : Engine) (v : Json) (hv : conforms planSchema v = true)
    (hstack : planSchema.depth ≤ engine.stackLimit) :
    sendPlan engine v = ⟨[], ⟨200, .plan v⟩⟩ := by
  obtain ⟨h1, h2⟩ := conforms_sent planSchema v hv
  have hd : v.depth ≤ engine.stackLimit := Nat.le_trans h2 hstack
  simp only [sendPlan, hd, if_true, h1]

/-! ## The parse step -/

set_option maxRecDepth 100000

/-- C1: a raw text made of a valid JSON text with white space around it
reaches the decoder trimmed and with no fence stripped, the parse step gives the
value the text decodes to, and that value is handed to `res.json` with status
200; when it has the shape of `planSchema` the client reads exactly that value,
on every engine with stack for the depth of the schema. -/
theorem plain_json_returned_as_decoded (J w0 w3 : JSString) (v : Json)
    (hJ : JSON.parse J = some v)
    (h0 : ∀ c ∈ w0, isTrimUnit c = true) (h3 : ∀ c ∈ w3, isTrimUnit c = true) :
    jsonString (w0 ++ J ++ w3) = trim (w0 ++ J ++ w3) ∧
      JSON.parse (jsonString (w0 ++ J ++ w3)) = some v ∧
      parsePlan (some (w0 ++ J ++ w3)) = .ok v ∧
      generatePlan (.resolved (some (w0 ++ J ++ w3))) = ⟨[], ⟨200, .plan v⟩⟩ ∧
      ∀ engine : Engine, conforms planSchema v = true →
        planSchema.depth ≤ engine.stackLimit →
        generatePlanResponse engine (.resolved (some (w0 ++ J ++ w3))) =
          ⟨[], ⟨200, .plan v⟩⟩ := by
  have ht : trim (w0 ++ J ++ w3) = trim J := by
    rw [trim_append_right _ w3 h3, trim_append_left w0 J h0]
  have hp : JSON.parse (trim (w0 ++ J ++ w3)) = some v := by
    rw [ht]; exact JSON.parse_trim J v hJ
  obtain ⟨hs, hg⟩ := generatePlan_of_parse_trim (w0 ++ J ++ w3) v hp
  have hj : JSON.parse (jsonString (w0 ++ J ++ w3)) = some v := by rw [hs]; exact hp
  refine ⟨hs, hj, by simp only [parsePlan, hj], hg, ?_⟩
  intro engine hv hstack
  rw [generatePlanResponse_of_parse engine _ v hj]
  exact sendPlan_of_conforms engine v hv hstack

/-- Witness of C1: a plan with line breaks, spaces and no-break spaces before
and after it. -/
theorem plain_json_returned_as_decoded_witness :
    generatePlan (.resolved (some (utf16 "\n\u00a0 \x7b\"workout_plan\":[],\"diet_plan\":[],\"ai_tips\":[\"Rest\"],\"daily_motivation_quote\":\"Go!\"\x7d \u00a0\n")))
        = ⟨[], ⟨200, .plan (.obj [(utf16 "workout_plan", .arr []), (utf16 "diet_plan", .arr []),
            (utf16 "ai_tips", .arr [.str (utf16 "Rest")]),
            (utf16 "daily_motivation_quote", .str (utf16 "Go!"))])⟩⟩ ∧
      generatePlanResponse sampleEngine (.resolved (some (utf16 "\n\u00a0 \x7b\"workout_plan\":[],\"diet_plan\":[],\"ai_tips\":[\"Rest\"],\"daily_motivation_quote\":\"Go!\"\x7d \u00a0\n")))
        = ⟨[], ⟨200, .plan (.obj [(utf16 "workout_plan", .arr []), (utf16 "diet_plan", .arr []),
            (utf16 "ai_tips", .arr [.str (utf16 "Rest")]),
            (utf16 "daily_motivation_quote", .str (utf16 "Go!"))])⟩⟩ :=
  ⟨(plain_json_returned_as_decoded
      (utf16 "\x7b\"workout_plan\":[],\"diet_plan\":[],\"ai_tips\":[\"Rest\"],\"daily_motivation_quote\":\"Go!\"\x7d")
      [10, 160, 32] [32, 160, 10] _ (by rfl) (by decide) (by decide)).2.2.2.1,
   (plain_json_returned_as_decoded
      (utf16 "\x7b\"workout_plan\":[],\"diet_plan\":[],\"ai_tips\":[\"Rest\"],\"daily_motivation_quote\":\"Go!\"\x7d")
      [10, 160, 32] [32, 160, 10] _ (by rfl) (by decide) (by decide)).2.2.2.2
      sampleEngine (by rfl) (by decide)⟩

/-- C2: a valid JSON text wrapped in `` ```json `` and `` ``` ``, with white
space allowed around the text and around the fences, is answered with status 200
and the value the text decodes to, as is the text sent unwrapped. -/
theorem json_fence_same_as_unwrapped (J w0 w1 w2 w3 : JSString) (v : Json)
    (hJ : JSON.parse J = some v)
    (h0 : ∀ c ∈ w0, isTrimUnit c = true) (h1 : ∀ c ∈ w1, isTrimUnit c = true)
    (h2 : ∀ c ∈ w2, isTrimUnit c = true) (h3 : ∀ c ∈ w3, isTrimUnit c = true) :
    generatePlan (.resolved (some (w0 ++ utf16 "```json" ++ (w1 ++ J ++ w2) ++ utf16 "```" ++ w3)))
        = ⟨[], ⟨200, .plan v⟩⟩ ∧
      generatePlan (.resolved (some J)) = ⟨[], ⟨200, .plan v⟩⟩ := by
  have hJt : JSON.parse (trim J) = some v := JSON.parse_trim J v hJ
  refine ⟨?_, (generatePlan_of_parse_trim J v hJt).2⟩
  apply generatePlan_of_parse
  have ht := trim_fenced w0 w3 [106, 115, 111, 110] (w1 ++ J ++ w2) h0 h3
  rw [← utf16_fenceJson] at ht
  rw [jsonString_fenceJson _ (w1 ++ J ++ w2) [] ht fence_last_of_nil,
    trim_append_right _ w2 h2, trim_append_left w1 J h1]
  exact hJt

/-- Witness of C2, the second end-to-end scenario: the fenced plan with three
empty arrays and the quote `Go!`. -/
theorem json_fence_same_as_unwrapped_witness :
    generatePlan (.resolved (some (utf16 "```json\n\x7b\"workout_plan\":[],\"diet_plan\":[],\"ai_tips\":[],\"daily_motivation_quote\":\"Go!\"\x7d\n```")))
      = ⟨[], ⟨200, .plan (.obj [(utf16 "workout_plan", .arr []), (utf16 "diet_plan", .arr []),
          (utf16 "ai_tips", .arr []), (utf16 "daily_motivation_quote", .str (utf16 "Go!"))])⟩⟩ :=
  (json_fence_same_as_unwrapped
    (utf16 "\x7b\"workout_plan\":[],\"diet_plan\":[],\"ai_tips\":[],\"daily_motivation_quote\":\"Go!\"\x7d")
    [] [10] [10] [] _ (by rfl) (by decide) (by decide) (by decide) (by decide)).1

/-- C3: a valid JSON text wrapped in a bare fence pair, with white space
allowed around the text and around the fences, is answered with status 200 and
the value the text decodes to, as is the text sent unwrapped. -/
theorem bare_fence_same_as_unwrapped (J w0 w1 w2 w3 : JSString) (v : Json)
    (hJ : JSON.parse J = some v)
    (h0 : ∀ c ∈ w0, isTrimUnit c = true) (h1 : ∀ c ∈ w1, isTrimUnit c = true)
    (h2 : ∀ c ∈ w2, isTrimUnit c = true) (h3 : ∀ c ∈ w3, isTrimUnit c = true) :
    generatePlan (.resolved (some (w0 ++ utf16 "```" ++ (w1 ++ J ++ w2) ++ utf16 "```" ++ w3)))
        = ⟨[], ⟨200, .plan v⟩⟩ ∧
      generatePlan (.resolved (some J)) = ⟨[], ⟨200, .plan v⟩⟩ := by
  have hJt : JSON.parse (trim J) = some v := JSON.parse_trim J v hJ
  refine ⟨?_, (generatePlan_of_parse_trim J v hJt).2⟩
  apply generatePlan_of_parse
  have ht := trim_fenced w0 w3 [] (w1 ++ J ++ w2) h0 h3
  rw [← utf16_fence] at ht
  have hbare : startsWith (trim (w0 ++ utf16 "```" ++ (w1 ++ J ++ w2) ++ utf16 "```" ++ w3))
      (utf16 "```json") = false := by
    rw [ht, utf16_fence, utf16_fenceJson, startsWith]
    cases w1 with
    | nil =>
      cases J with
      | nil => rw [JSON.parse_nil] at hJ; cases hJ
      | cons a J' =>
        by_cases ha : a = 106
        · subst ha; rw [JSON.parse_j] at hJ; cases hJ
        · simp [List.isPrefixOf, ha]
          intro h; exact absurd h.symm ha
    | cons a w1' =>
      have ha : isTrimUnit a = true := h1 a (List.mem_cons_self a w1')
      have : a ≠ 106 := by rintro rfl; exact absurd ha (by decide)
      simp [List.isPrefixOf]
      intro h; exact absurd h.symm this
  rw [jsonString_fenceBare _ (w1 ++ J ++ w2) [] ht hbare fence_last_of_nil,
    trim_append_right _ w2 h2, trim_append_left w1 J h1]
  exact hJt

/-- Witness of C3: an array between bare fences. -/
theorem bare_fence_same_as_unwrapped_witness :
    generatePlan (.resolved (some (utf16 " ```\n[1, \"json\"]\n``` ")))
      = ⟨[], ⟨200, .plan (.arr [.num (utf16 "1"), .str (utf16 "json")])⟩⟩ :=
  (bare_fence_same_as_unwrapped (utf16 "[1, \"json\"]") [32] [10] [10] [32] _ (by rfl)
    (by decide) (by decide) (by decide) (by decide)).1

/-- C4: a raw text whose normalised form is not valid JSON makes the inner `try`
block raise a `SyntaxError`, which the handler catches: it answers status 500
with the fixed error message and no plan, and logs the raw text. -/
theorem malformed_text_answered_500 (raw : JSString) (h : JSON.parse (jsonString raw) = none) :
    parsePlan (some raw) = .error .syntaxError ∧
      generatePlan (.resolved (some raw)) =
        ⟨[.parsingFailed, .rawTextReceived (some raw)],
         ⟨500, .failure "AI output was not parsable JSON. Please try again."
            (some (utf16 "Parsing error on server."))⟩⟩ := by
  refine ⟨?_, generatePlan_of_parse_none raw h⟩
  simp only [parsePlan, h]

/-- Witness of C4, the third end-to-end scenario: the raw text `not json at all`. -/
theorem malformed_text_answered_500_witness :
    JSON.parse (jsonString (utf16 "not json at all")) = none ∧
      generatePlan (.resolved (some (utf16 "not json at all"))) =
        ⟨[.parsingFailed, .rawTextReceived (some (utf16 "not json at all"))],
         ⟨500, .failure "AI output was not parsable JSON. Please try again."
            (some (utf16 "Parsing error on server."))⟩⟩ :=
  ⟨by rfl, (malformed_text_answered_500 (utf16 "not json at all") (by rfl)).2⟩

/-- C5, as the code has it: when the trimmed raw text begins with `` ```json ``
(respectively with a bare fence) and a fence follows, the decoder is handed the
trimmed text between the opening marker and the last fence of the text; that
fence and what comes after it are discarded. -/
theorem fence_stripping_stops_at_last_fence (raw body tail : JSString)
    (hlast : includes ((utf16 "```" ++ tail).drop 1) (utf16 "```") = false) :
    (trim raw = utf16 "```json" ++ body ++ utf16 "```" ++ tail → jsonString raw = trim body) ∧
      (trim raw = utf16 "```" ++ body ++ utf16 "```" ++ tail →
        startsWith (trim raw) (utf16 "```json") = false → jsonString raw = trim body) :=
  ⟨fun ht => jsonString_fenceJson raw body tail ht (fence_last_of_not_includes tail hlast),
   fun ht hbare =>
    jsonString_fenceBare raw body tail ht hbare (fence_last_of_not_includes tail hlast)⟩

/-- Witness of C5 as amended: a tagged block with a fence inside and a remark
after the last fence, and a bare block. -/
theorem fence_stripping_stops_at_last_fence_witness :
    jsonString (utf16 " ```json\n[\"a\"]\n```\n[\"b\"]\n``` ok\n") = utf16 "[\"a\"]\n```\n[\"b\"]" ∧
      jsonString (utf16 "```\n[1]\n```!") = utf16 "[1]" :=
  ⟨(fence_stripping_stops_at_last_fence (utf16 " ```json\n[\"a\"]\n```\n[\"b\"]\n``` ok\n")
      (utf16 "\n[\"a\"]\n```\n[\"b\"]\n") (utf16 " ok") (by decide)).1 (by decide),
   (fence_stripping_stops_at_last_fence (utf16 "```\n[1]\n```!") (utf16 "\n[1]\n") (utf16 "!")
      (by decide)).2 (by decide) (by decide)⟩

/-- Counterexample to C5 as stated: with two fences after the opening marker the
decoder is handed the text up to the last one, not up to the first. -/
theorem first_fence_reading_refuted :
    startsWith (trim (utf16 "```json\n\x7b\x7d\n```\n```")) (utf16 "```json") = true ∧
      jsonString (utf16 "```json\n\x7b\x7d\n```\n```") = utf16 "\x7b\x7d\n```" ∧
      betweenMarkerAndFirstFence 7 (utf16 "```json\n\x7b\x7d\n```\n```") = utf16 "\x7b\x7d" ∧
      jsonString (utf16 "```json\n\x7b\x7d\n```\n```")
        ≠ betweenMarkerAndFirstFence 7 (utf16 "```json\n\x7b\x7d\n```\n```") := by
  decide

/-- C6, as the code has it: when the handler answers status 200, the value the
client reads is the serialised value the normalised text decodes to, and it has
each property, so each of the four plan fields, exactly when the decoded value
has it; the handler checks none.  Every raw text is answered with that value
and all its fields, or with a status 500 error. -/
theorem success_keeps_decoded_fields (engine : Engine) (raw : JSString) :
    (∀ sent, (generatePlanResponse engine (.resolved (some raw))).response = ⟨200, .plan sent⟩ →
        ∃ plan, JSON.parse (jsonString raw) = some plan ∧ sent = sentValue plan ∧
          (∀ key, hasProperty key sent = hasProperty key plan) ∧
          hasPlanFields sent = hasPlanFields plan) ∧
      ((∃ plan, JSON.parse (jsonString raw) = some plan ∧ plan.depth ≤ engine.stackLimit ∧
          generatePlanResponse engine (.resolved (some raw)) =
            ⟨[], ⟨200, .plan (sentValue plan)⟩⟩) ∨
        (∃ plan, JSON.parse (jsonString raw) = some plan ∧ engine.stackLimit < plan.depth ∧
          (generatePlanResponse engine (.resolved (some raw))).response =
            ⟨500, .failure (errorMessage (some engine.rangeErrorMessage))
              (some engine.rangeErrorMessage)⟩) ∨
        (JSON.parse (jsonString raw) = none ∧
          (generatePlanResponse engine (.resolved (some raw))).response =
            ⟨500, .failure "AI output was not parsable JSON. Please try again."
              (some (utf16 "Parsing error on server."))⟩)) := by
  cases h : JSON.parse (jsonString raw) with
  | none =>
    have hg := generatePlanResponse_of_parse_none engine raw h
    refine ⟨?_, Or.inr (Or.inr ⟨rfl, by rw [hg]⟩)⟩
    intro sent hs
    rw [hg] at hs
    cases hs
  | some v =>
    have hg := generatePlanResponse_of_parse engine raw v h
    by_cases hd : v.depth ≤ engine.stackLimit
    · have hsend : sendPlan engine v = ⟨[], ⟨200, .plan (sentValue v)⟩⟩ := by
        simp only [sendPlan, hd, if_true]
      refine ⟨?_, Or.inl ⟨v, rfl, hd, by rw [hg, hsend]⟩⟩
      intro sent hs
      rw [hg, hsend] at hs
      cases hs
      exact ⟨v, rfl, rfl, fun key => hasProperty_sentValue key v, hasPlanFields_sentValue v⟩
    · have hsend : sendPlan engine v = caught (some engine.rangeErrorMessage) := by
        simp only [sendPlan, hd, if_false]
      refine ⟨?_, Or.inr (Or.inl ⟨v, rfl, by omega, by rw [hg, hsend]; rfl⟩)⟩
      intro sent hs
      rw [hg, hsend] at hs
      cases hs

/-- Witness of C6 as amended: a decoded plan with its four fields is read by
the client with its four fields. -/
theorem success_keeps_decoded_fields_witness :
    ∃ plan, JSON.parse (jsonString (utf16 "\x7b\"workout_plan\":[],\"diet_plan\":[],\"ai_tips\":[],\"daily_motivation_quote\":\"Go!\"\x7d")) = some plan ∧
      (.obj [(utf16 "workout_plan", .arr []), (utf16 "diet_plan", .arr []),
        (utf16 "ai_tips", .arr []), (utf16 "daily_motivation_quote", .str (utf16 "Go!"))] : Json)
        = sentValue plan ∧
      (∀ key, hasProperty key (.obj [(utf16 "workout_plan", .arr []), (utf16 "diet_plan", .arr []),
        (utf16 "ai_tips", .arr []), (utf16 "daily_motivation_quote", .str (utf16 "Go!"))])
        = hasProperty key plan) ∧
      hasPlanFields (.obj [(utf16 "workout_plan", .arr []), (utf16 "diet_plan", .arr []),
        (utf16 "ai_tips", .arr []), (utf16 "daily_motivation_quote", .str (utf16 "Go!"))])
        = hasPlanFields plan :=
  (success_keeps_decoded_fields sampleEngine
    (utf16 "\x7b\"workout_plan\":[],\"diet_plan\":[],\"ai_tips\":[],\"daily_motivation_quote\":\"Go!\"\x7d")).1
    _ (by rfl)

/-- Counterexample to C6 as stated: the raw text `{}` is answered with status
200 and an object that has none of the four plan fields. -/
theorem empty_object_returned_as_plan :
    generatePlan (.resolved (some (utf16 "\x7b\x7d"))) = ⟨[], ⟨200, .plan (.obj [])⟩⟩ ∧
      generatePlanResponse sampleEngine (.resolved (some (utf16 "\x7b\x7d"))) =
        ⟨[], ⟨200, .plan (.obj [])⟩⟩ ∧
      hasPlanFields (.obj []) = false ∧
      hasProperty (utf16 "workout_plan") (.obj []) = false :=
  ⟨by rfl, by rfl, by decide, by decide⟩

/-- A number too large for a double is read by the client as `null`. -/
theorem overflowing_number_sent_as_null :
    JSON.parse (jsonString (utf16 "[1e400, -0.0, 2.5]"))
        = some (.arr [.num (utf16 "1e400"), .num (utf16 "-0.0"), .num (utf16 "2.5")]) ∧
      generatePlanResponse sampleEngine (.resolved (some (utf16 "[1e400, -0.0, 2.5]"))) =
        ⟨[], ⟨200, .plan (.arr [.null, .num (utf16 "0"), .num (utf16 "2.5")])⟩⟩ := by
  have h1 : (decimalOf (utf16 "1e400")).overflows = true := by decide!
  have h2 : (decimalOf (utf16 "-0.0")).overflows = false := by decide!
  have h3 : ((decimalOf (utf16 "-0.0")).negative && (decimalOf (utf16 "-0.0")).roundsToZero)
      = true := by decide!
  have h4 : (decimalOf (utf16 "2.5")).overflows = false := by decide!
  have h5 : ((decimalOf (utf16 "2.5")).negative && (decimalOf (utf16 "2.5")).roundsToZero)
      = false := by decide!
  have hp : JSON.parse (jsonString (utf16 "[1e400, -0.0, 2.5]"))
      = some (.arr [.num (utf16 "1e400"), .num (utf16 "-0.0"), .num (utf16 "2.5")]) := by rfl
  refine ⟨hp, ?_⟩
  rw [generatePlanResponse_of_parse sampleEngine _ _ hp]
  have hd : (Json.arr [.num (utf16 "1e400"), .num (utf16 "-0.0"), .num (utf16 "2.5")]).depth
      ≤ sampleEngine.stackLimit := by decide
  simp only [sendPlan, hd, if_true, sentValue, sentElements, h1, h2, h3, h4, h5,
    Bool.false_eq_true, if_false]

/-- A value nested deeper than the stack of the engine holds is decoded, but
answered with the generic status 500 error of the outer `catch`. -/
theorem deep_nesting_answered_500 :
    JSON.parse (jsonString (utf16 "[[[[]]]]")) = some (.arr [.arr [.arr [.arr []]]]) ∧
      generatePlanResponse ⟨3, utf16 "Maximum call stack size exceeded", fun _ => []⟩
          (.resolved (some (utf16 "[[[[]]]]"))) =
        ⟨[.generationFailed (some (utf16 "Maximum call stack size exceeded"))],
         ⟨500, .failure "Internal Server Error. Check API keys and server logs."
            (some (utf16 "Maximum call stack size exceeded"))⟩⟩ :=
  ⟨by rfl, by rfl⟩

/-! ## Failures of the external call -/

theorem apiKey_ne_nil : utf16 "API key" ≠ [] := by decide

theorem invalidArgument_ne_nil : utf16 "INVALID_ARGUMENT" ≠ [] := by decide

theorem messageIncludes_some (m marker : JSString) (hp : marker ≠ []) :
    messageIncludes (some m) marker = includes m marker := by
  cases h : includes m marker with
  | false => simp [messageIncludes, h]
  | true => simp [messageIncludes, h, includes_ne_nil m marker hp h]

/-- C7: a failure of the external call whose message contains `API key` is
answered with status 500, the authentication error, and the failure message as
details. -/
theorem api_key_failure_is_authentication_error (m : JSString)
    (h : includes m (utf16 "API key") = true) :
    generatePlan (.rejected (some m)) =
      ⟨[.generationFailed (some m)],
       ⟨500, .failure "Authentication Error: Invalid or missing GEMINI_API_KEY." (some m)⟩⟩ := by
  simp only [generatePlan, errorMessage, messageIncludes_some m _ apiKey_ne_nil, h, if_true]

/-- Witness of C7: the message of a rejected key. -/
theorem api_key_failure_is_authentication_error_witness :
    generatePlan (.rejected (some (utf16 "API key not valid. Please pass a valid API key."))) =
      ⟨[.generationFailed (some (utf16 "API key not valid. Please pass a valid API key."))],
       ⟨500, .failure "Authentication Error: Invalid or missing GEMINI_API_KEY."
          (some (utf16 "API key not valid. Please pass a valid API key."))⟩⟩ :=
  api_key_failure_is_authentication_error _ (by decide)

/-- C8, as the code has it: a failure of the external call whose message
contains `INVALID_ARGUMENT` and does not contain `API key` is answered with
status 500 and the schema error, the failure message as details. -/
theorem invalid_argument_failure_is_schema_error (m : JSString)
    (h : includes m (utf16 "INVALID_ARGUMENT") = true)
    (hkey : includes m (utf16 "API key") = false) :
    generatePlan (.rejected (some m)) =
      ⟨[.generationFailed (some m)],
       ⟨500, .failure
          "Schema Error: Gemini API rejected the request (INVALID_ARGUMENT). Check planSchema."
          (some m)⟩⟩ := by
  simp only [generatePlan, errorMessage, messageIncludes_some m _ apiKey_ne_nil,
    messageIncludes_some m _ invalidArgument_ne_nil, h, hkey, if_true, Bool.false_eq_true,
    if_false]

/-- Witness of C8 as amended: a rejected response schema. -/
theorem invalid_argument_failure_is_schema_error_witness :
    generatePlan (.rejected (some (utf16 "400 INVALID_ARGUMENT: unknown field in schema"))) =
      ⟨[.generationFailed (some (utf16 "400 INVALID_ARGUMENT: unknown field in schema"))],
       ⟨500, .failure
          "Schema Error: Gemini API rejected the request (INVALID_ARGUMENT). Check planSchema."
          (some (utf16 "400 INVALID_ARGUMENT: unknown field in schema"))⟩⟩ :=
  invalid_argument_failure_is_schema_error _ (by decide) (by decide)

/-- Counterexample to C8 as stated: a message with both markers contains
`INVALID_ARGUMENT` and is answered with the authentication error. -/
theorem invalid_argument_with_api_key_refuted :
    includes (utf16 "400 INVALID_ARGUMENT: API key not valid.") (utf16 "INVALID_ARGUMENT") = true ∧
      errorMessage (some (utf16 "400 INVALID_ARGUMENT: API key not valid."))
        = "Authentication Error: Invalid or missing GEMINI_API_KEY." ∧
      errorMessage (some (utf16 "400 INVALID_ARGUMENT: API key not valid."))
        ≠ "Schema Error: Gemini API rejected the request (INVALID_ARGUMENT). Check planSchema." ∧
      generatePlan (.rejected (some (utf16 "400 INVALID_ARGUMENT: API key not valid."))) =
        ⟨[.generationFailed (some (utf16 "400 INVALID_ARGUMENT: API key not valid."))],
         ⟨500, .failure "Authentication Error: Invalid or missing GEMINI_API_KEY."
            (some (utf16 "400 INVALID_ARGUMENT: API key not valid."))⟩⟩ :=
  ⟨by decide, by decide, by decide, by rfl⟩

/-- C9: when the one call of the external service fails with a message that
contains neither marker, or with no message, the handler answers status 500
with the generic error and the failure message unchanged as details, and the
service has been called once: no second call is made, whatever a second call
would give. -/
theorem other_failure_is_generic_error (engine : Engine)
    (generateContent : Nat → JSString → GenerateContent) (userInput : JSValue)
    (prompt : JSString) (message : Option JSString)
    (hprompt : createPlanPrompt userInput = .ok prompt)
    (hfail : generateContent 0 prompt = .rejected message)
    (h : ∀ m, message = some m →
      includes m (utf16 "API key") = false ∧ includes m (utf16 "INVALID_ARGUMENT") = false) :
    generatePlanRoute engine generateContent userInput =
        ⟨[prompt], ⟨[.generationFailed message],
          ⟨500, .failure "Internal Server Error. Check API keys and server logs." message⟩⟩⟩ ∧
      generatePlan (.rejected message) =
        ⟨[.generationFailed message],
         ⟨500, .failure "Internal Server Error. Check API keys and server logs." message⟩⟩ := by
  have hm : errorMessage message = "Internal Server Error. Check API keys and server logs." := by
    cases message with
    | none => rfl
    | some m =>
      obtain ⟨hk, ha⟩ := h m rfl
      simp only [errorMessage, messageIncludes_some m _ apiKey_ne_nil,
        messageIncludes_some m _ invalidArgument_ne_nil, hk, ha, Bool.false_eq_true, if_false]
  constructor
  · simp only [generatePlanRoute, hprompt, hfail, generatePlanResponse, caught, hm]
  · simp only [generatePlan, hm]

/-- Witness of C9: a service whose first call fails on the network and whose
second call would have returned a plan; and a failure without a message. -/
theorem other_failure_is_generic_error_witness :
    (generatePlanRoute sampleEngine
        (fun n _ => if n = 0 then .rejected (some (utf16 "fetch failed"))
          else .resolved (some (utf16 "\x7b\x7d")))
        (.object [(utf16 "goal", .string (utf16 "Endurance"))])).calls.length = 1 ∧
      (generatePlanRoute sampleEngine
        (fun n _ => if n = 0 then .rejected (some (utf16 "fetch failed"))
          else .resolved (some (utf16 "\x7b\x7d")))
        (.object [(utf16 "goal", .string (utf16 "Endurance"))])).reply =
        ⟨[.generationFailed (some (utf16 "fetch failed"))],
         ⟨500, .failure "Internal Server Error. Check API keys and server logs."
            (some (utf16 "fetch failed"))⟩⟩ ∧
      generatePlan (.rejected none) =
        ⟨[.generationFailed none],
         ⟨500, .failure "Internal Server Error. Check API keys and server logs." none⟩⟩ := by
  have h1 := (other_failure_is_generic_error sampleEngine
    (fun n _ => if n = 0 then .rejected (some (utf16 "fetch failed"))
      else .resolved (some (utf16 "\x7b\x7d")))
    (.object [(utf16 "goal", .string (utf16 "Endurance"))]) _ (some (utf16 "fetch failed"))
    rfl rfl (fun m hm => by cases hm; decide)).1
  have h2 := (other_failure_is_generic_error sampleEngine (fun _ _ => .rejected none)
    (.object []) _ none rfl rfl (fun m hm => by cases hm)).2
  exact ⟨by rw [h1]; rfl, by rw [h1], h2⟩

/-- C10: two raw texts that both fail to parse get the same response, the fixed
status 500 body; the raw text appears only in the server log. -/
theorem parse_failure_response_independent_of_text (r1 r2 : JSString)
    (h1 : JSON.parse (jsonString r1) = none) (h2 : JSON.parse (jsonString r2) = none) :
    (generatePlan (.resolved (some r1))).response = (generatePlan (.resolved (some r2))).response ∧
      (generatePlan (.resolved (some r1))).response =
        ⟨500, .failure "AI output was not parsable JSON. Please try again."
          (some (utf16 "Parsing error on server."))⟩ ∧
      (generatePlan (.resolved (some r1))).log = [.parsingFailed, .rawTextReceived (some r1)] := by
  rw [generatePlan_of_parse_none r1 h1, generatePlan_of_parse_none r2 h2]
  exact ⟨rfl, rfl, rfl⟩

/-- Witness of C10: a sentence and an unclosed array. -/
theorem parse_failure_response_independent_of_text_witness :
    (generatePlan (.resolved (some (utf16 "Sorry, I cannot help.")))).response =
      (generatePlan (.resolved (some (utf16 "[1, 2")))).response :=
  (parse_failure_response_independent_of_text (utf16 "Sorry, I cannot help.") (utf16 "[1, 2")
    (by rfl) (by rfl)).1

/-! ## An opening fence without a closing fence -/

theorem substring_to_zero (opening rest : JSString) (a : Int)
    (ha : a.toNat = opening.length) : substring (opening ++ rest) a 0 = opening := by
  unfold substring
  simp only [ha, Int.toNat_zero, List.length_append]
  have h1 : min opening.length (opening.length + rest.length) = opening.length := by omega
  have h2 : min 0 (opening.length + rest.length) = 0 := by omega
  have h3 : min opening.length 0 = 0 := by omega
  have h4 : max opening.length 0 = opening.length := by omega
  rw [h1, h2, h3, h4, List.drop_zero, Nat.sub_zero, List.take_left]

/-- A text that begins with a fence and has no other fence: the last fence is
the opening one. -/
theorem lastIndexOf_opening_fence (t : JSString) (hstart : startsWith t (utf16 "```") = true)
    (honly : includes (t.drop 1) (utf16 "```") = false) : lastIndexOf t (utf16 "```") = 0 := by
  obtain ⟨rest, rfl⟩ := startsWith_fence t hstart
  have ht : (96 :: 96 :: 96 :: rest : JSString) = [] ++ utf16 "```" ++ rest := by
    rw [utf16_fence]; rfl
  have hlast := fence_last_of_not_includes rest (by rw [utf16_fence]; exact honly)
  rw [ht]
  exact lastIndexOf_of_last [] (utf16 "```") rest hlast

/-- C15: when the trimmed raw text begins with a fence and holds no other
fence, `lastIndexOf` is 0, the decoder is handed the opening marker alone
(`` ```json `` or `` ``` ``), which is not JSON whatever follows the marker,
and the handler answers status 500 with the parse error. -/
theorem unclosed_fence_is_malformed (raw : JSString)
    (hstart : startsWith (trim raw) (utf16 "```") = true)
    (honly : includes ((trim raw).drop 1) (utf16 "```") = false) :
    lastIndexOf (trim raw) (utf16 "```") = 0 ∧
      (startsWith (trim raw) (utf16 "```json") = true → jsonString raw = utf16 "```json") ∧
      (startsWith (trim raw) (utf16 "```json") = false → jsonString raw = utf16 "```") ∧
      JSON.parse (jsonString raw) = none ∧
      generatePlan (.resolved (some raw)) =
        ⟨[.parsingFailed, .rawTextReceived (some raw)],
         ⟨500, .failure "AI output was not parsable JSON. Please try again."
            (some (utf16 "Parsing error on server."))⟩⟩ := by
  have hi := lastIndexOf_opening_fence (trim raw) hstart honly
  have h7 : startsWith (trim raw) (utf16 "```json") = true → jsonString raw = utf16 "```json" := by
    intro h
    have hs : substring (trim raw) 7 0 = utf16 "```json" := by
      rw [startsWith, List.isPrefixOf_iff_prefix] at h
      obtain ⟨rest, hr⟩ := h
      rw [← hr]
      exact substring_to_zero (utf16 "```json") rest 7 (by rw [utf16_fenceJson]; rfl)
    simp only [jsonString, h, if_true, hi, hs]
    decide
  have h3 : startsWith (trim raw) (utf16 "```json") = false → jsonString raw = utf16 "```" := by
    intro h
    have hs : substring (trim raw) 3 0 = utf16 "```" := by
      rw [startsWith, List.isPrefixOf_iff_prefix] at hstart
      obtain ⟨rest, hr⟩ := hstart
      rw [← hr]
      exact substring_to_zero (utf16 "```") rest 3 (by rw [utf16_fence]; rfl)
    simp only [jsonString, h, hstart, Bool.false_eq_true, if_false, if_true, hi, hs]
    decide
  have hp : JSON.parse (jsonString raw) = none := by
    cases h : startsWith (trim raw) (utf16 "```json") with
    | true => rw [h7 h]; rfl
    | false => rw [h3 h]; rfl
  exact ⟨hi, h7, h3, hp, generatePlan_of_parse_none raw hp⟩

/-- Witness of C15: valid JSON behind a tagged opening fence that is never
closed. -/
theorem unclosed_fence_is_malformed_witness :
    JSON.parse (utf16 "\x7b\x7d") = some (.obj []) ∧
      jsonString (utf16 "```json\x7b\x7d") = utf16 "```json" ∧
      JSON.parse (jsonString (utf16 "```json\x7b\x7d")) = none :=
  ⟨by rfl,
   (unclosed_fence_is_malformed (utf16 "```json\x7b\x7d") (by decide) (by decide)).2.1 (by decide),
   (unclosed_fence_is_malformed (utf16 "```json\x7b\x7d") (by decide) (by decide)).2.2.2.1⟩

/-! ## The export of a plan -/

/-- A template with a part that raises an exception raises one. -/
theorem template_error_of_mem (parts : List (Except Thrown JSString))
    (h : ∃ t, Except.error t ∈ parts) : ∃ t, template parts = .error t := by
  induction parts with
  | nil =>
    obtain ⟨t, ht⟩ := h
    cases ht
  | cons part parts ih =>
    cases part with
    | error t => exact ⟨t, rfl⟩
    | ok text =>
      obtain ⟨t, ht⟩ := h
      have ht' : Except.error t ∈ parts := by
        cases ht with
        | tail _ h' => exact h'
      obtain ⟨t', h'⟩ := ih ⟨t, ht'⟩
      exact ⟨t', by simp only [template, h']⟩

/-- Mapping over a property that is absent raises a `TypeError`. -/
theorem holeMap_undefined (obj : JSValue) (key : String)
    (f : JSValue → Except Thrown JSString) (h : obj.prop (utf16 key) = .undefined) :
    holeMap obj key f = .error .typeError := by
  unfold holeMap
  rw [h]
  split <;> rfl

/-- A value with a truthy property is an object, hence neither falsy nor
nullish. -/
theorem object_of_prop_truthy (v : JSValue) (key : JSString)
    (h : (v.prop key).toBoolean = true) : v.toBoolean = true ∧ v.isNullish = false := by
  cases v <;> first | exact ⟨rfl, rfl⟩ | (simp [JSValue.prop, JSValue.toBoolean] at h)

/-- A workout day without exercises makes its card raise an exception. -/
theorem workoutDay_without_exercises (day : JSValue)
    (h : day.prop (utf16 "exercises") = .undefined) : ∃ t, workoutDay day = .error t := by
  apply template_error_of_mem
  refine ⟨.typeError, ?_⟩
  rw [holeMap_undefined day "exercises" exerciseItem h]
  simp

/-- The HTML of a plan that lacks `diet_plan` or `ai_tips`, or that has a
workout day without exercises, cannot be built. -/
theorem generatePlanHTML_incomplete (today : JSString) (plan : JSValue)
    (hlack : plan.prop (utf16 "diet_plan") = .undefined ∨
      plan.prop (utf16 "ai_tips") = .undefined ∨
      ∃ days day, plan.prop (utf16 "workout_plan") = .array days ∧ day ∈ days ∧
        day.prop (utf16 "exercises") = .undefined) :
    ∃ t, generatePlanHTML today plan = .error t := by
  apply template_error_of_mem
  rcases hlack with h | h | ⟨days, day, hw, hday, hex⟩
  · refine ⟨.typeError, ?_⟩
    rw [holeMap_undefined plan "diet_plan" dietDay h]
    simp
  · refine ⟨.typeError, ?_⟩
    rw [holeMap_undefined plan "ai_tips" tipItem h]
    simp
  · have hn : plan.isNullish = false := by
      cases plan <;> first | rfl | (simp [JSValue.prop] at hw)
    obtain ⟨t, ht⟩ := workoutDay_without_exercises day hex
    obtain ⟨t', ht'⟩ := template_error_of_mem (days.map workoutDay)
      ⟨t, by rw [← ht]; exact List.mem_map_of_mem workoutDay hday⟩
    refine ⟨t', ?_⟩
    have : holeMap plan "workout_plan" workoutDay = .error t' := by
      simp only [holeMap, hn, hw, ht', Bool.false_eq_true, if_false]
    rw [this]
    simp

/-- C14: a request body without `workout_plan` is answered with status 400 and
the incomplete-plan error; the HTML is not built and the renderer is not
invoked. -/
theorem missing_workout_plan_answered_400 (today : JSString)
    (generatePdf : JSString → Option (List Nat)) (planData : JSValue)
    (h : planData.prop (utf16 "workout_plan") = .undefined) :
    exportPdf today generatePdf planData =
      ⟨[], .json 400 "Plan data is missing or incomplete."⟩ := by
  simp [exportPdf, h, JSValue.toBoolean]

/-- Witness of C14: a body with every section but the workout plan. -/
theorem missing_workout_plan_answered_400_witness :
    exportPdf (utf16 "11/4/2026") (fun _ => some [37, 80, 68, 70])
        (.object [(utf16 "diet_plan", .array []), (utf16 "ai_tips", .array []),
          (utf16 "daily_motivation_quote", .string (utf16 "Go!"))]) =
      ⟨[], .json 400 "Plan data is missing or incomplete."⟩ :=
  missing_workout_plan_answered_400 _ _ _ (by rfl)

/-- The handler answers 400 exactly when `planData.workout_plan` is falsy. -/
theorem exportPdf_400_iff (today : JSString) (generatePdf : JSString → Option (List Nat))
    (planData : JSValue) :
    (exportPdf today generatePdf planData).response =
        .json 400 "Plan data is missing or incomplete." ↔
      (planData.prop (utf16 "workout_plan")).toBoolean = false := by
  cases hw : (planData.prop (utf16 "workout_plan")).toBoolean with
  | false => simp [exportPdf, hw]
  | true =>
    have hb := (object_of_prop_truthy planData _ hw).1
    simp only [exportPdf, hb, hw, Bool.not_true, Bool.or_self, Bool.false_eq_true, if_false,
      iff_false]
    cases generatePlanHTML today planData with
    | error t => simp
    | ok content => cases hr : generatePdf content <;> simp [hr]

/-- C16: a request body whose `workout_plan` passes the guard but that lacks
`diet_plan` or `ai_tips`, or has a workout day without exercises, makes
`generatePlanHTML` raise an exception; the handler answers status 500 with the
export error, not 400, and the renderer is not invoked.  Status 400 is kept for
a `workout_plan` that fails the guard. -/
theorem incomplete_plan_answered_500 (today : JSString)
    (generatePdf : JSString → Option (List Nat)) (planData : JSValue) :
    ((planData.prop (utf16 "workout_plan")).toBoolean = true →
      (planData.prop (utf16 "diet_plan") = .undefined ∨
        planData.prop (utf16 "ai_tips") = .undefined ∨
        ∃ days day, planData.prop (utf16 "workout_plan") = .array days ∧ day ∈ days ∧
          day.prop (utf16 "exercises") = .undefined) →
      (∃ t, generatePlanHTML today planData = .error t) ∧
        exportPdf today generatePdf planData =
          ⟨[.generatePlanHTML, .consoleError],
           .json 500 "Failed to generate and export PDF."⟩) ∧
      ((exportPdf today generatePdf planData).response =
          .json 400 "Plan data is missing or incomplete." ↔
        (planData.prop (utf16 "workout_plan")).toBoolean = false) := by
  refine ⟨?_, exportPdf_400_iff today generatePdf planData⟩
  intro hw hlack
  obtain ⟨t, ht⟩ := generatePlanHTML_incomplete today planData hlack
  refine ⟨⟨t, ht⟩, ?_⟩
  have hb := (object_of_prop_truthy planData _ hw).1
  simp [exportPdf, hb, hw, ht]

/-- Witness of C16: a plan without tips, and a plan whose only workout day has
no exercises. -/
theorem incomplete_plan_answered_500_witness :
    exportPdf (utf16 "11/4/2026") (fun _ => some [37, 80, 68, 70])
        (.object [(utf16 "workout_plan", .array []), (utf16 "diet_plan", .array []),
          (utf16 "daily_motivation_quote", .string (utf16 "Go!"))]) =
        ⟨[.generatePlanHTML, .consoleError], .json 500 "Failed to generate and export PDF."⟩ ∧
      exportPdf (utf16 "11/4/2026") (fun _ => some [37, 80, 68, 70])
        (.object [(utf16 "workout_plan", .array [.object [(utf16 "day", .string (utf16 "Monday"))]]),
          (utf16 "diet_plan", .array []), (utf16 "ai_tips", .array []),
          (utf16 "daily_motivation_quote", .string (utf16 "Go!"))]) =
        ⟨[.generatePlanHTML, .consoleError], .json 500 "Failed to generate and export PDF."⟩ :=
  ⟨((incomplete_plan_answered_500 _ _ _).1 (by rfl) (Or.inr (Or.inl (by rfl)))).2,
   ((incomplete_plan_answered_500 (utf16 "11/4/2026") (fun _ => some [37, 80, 68, 70])
      (.object [(utf16 "workout_plan", .array [.object [(utf16 "day", .string (utf16 "Monday"))]]),
        (utf16 "diet_plan", .array []), (utf16 "ai_tips", .array []),
        (utf16 "daily_motivation_quote", .string (utf16 "Go!"))])).1
      (by rfl)
      (Or.inr (Or.inr ⟨[.object [(utf16 "day", .string (utf16 "Monday"))]],
        .object [(utf16 "day", .string (utf16 "Monday"))], by rfl,
        List.mem_singleton.mpr rfl, by rfl⟩))).2⟩

/-! ## Occurrences of a text in a template -/

/-- The method `includes` finds exactly the contiguous sublists. -/
theorem includes_eq_true_iff (s p : JSString) : includes s p = true ↔ p <:+: s := by
  induction s with
  | nil =>
    simp only [includes, List.isPrefixOf_iff_prefix]
    exact ⟨fun h => h.isInfix, fun h => by rw [List.eq_nil_of_infix_nil h]⟩
  | cons c cs ih =>
    simp only [includes, Bool.or_eq_true, List.isPrefixOf_iff_prefix, ih]
    exact List.infix_cons_iff.symm

theorem includes_eq_false_iff (s p : JSString) : includes s p = false ↔ ¬ p <:+: s := by
  rw [← includes_eq_true_iff, Bool.not_eq_true]

theorem infix_here (p rest : JSString) : p <:+: p ++ rest :=
  (List.prefix_append p rest).isInfix

theorem infix_later (a b p : JSString) (h : p <:+: b) : p <:+: a ++ b :=
  h.trans (List.suffix_append a b).isInfix

/-- Two texts that end with a unit `q` followed by remainders free of `q` have
the same remainder. -/
theorem remainder_eq_of_not_mem (q : Nat) (u v : JSString) (hu : q ∉ u) (hv : q ∉ v) :
    ∀ (a b : JSString), a ++ q :: u = b ++ q :: v → u = v := by
  intro a
  induction a with
  | nil =>
    intro b h
    cases b with
    | nil => exact (List.cons.inj h).2
    | cons d b =>
      have h2 := (List.cons.inj h).2
      exact absurd (by rw [h2]; simp) hu
  | cons c a ih =>
    intro b h
    cases b with
    | nil =>
      have h2 := (List.cons.inj h).2
      exact absurd (by rw [← h2]; simp) hv
    | cons d b => exact ih b (List.cons.inj h).2

/-- A framing `Q1 ++ item ++ q :: Q2` does not occur in a prompt
`P1 ++ item ++ q :: P2` built around the same item when the unit `q` occurs as
often in `P1` as in `Q1`, in neither remainder, and `Q2` does not begin `P2`. -/
theorem not_infix_of_remainder (q : Nat) (P1 P2 Q1 Q2 item : JSString)
    (hc : P1.count q = Q1.count q) (hP2 : q ∉ P2) (hQ2 : q ∉ Q2) (hne : ¬ Q2 <+: P2) :
    ¬ (Q1 ++ item ++ q :: Q2) <:+: (P1 ++ item ++ q :: P2) := by
  rintro ⟨x, y, h⟩
  have hcount := congrArg (List.count q) h
  simp only [List.count_append, List.count_cons_self, List.count_eq_zero.mpr hP2,
    List.count_eq_zero.mpr hQ2] at hcount
  have hy : q ∉ y := List.count_eq_zero.mp (by omega)
  have h' : (x ++ Q1 ++ item) ++ q :: (Q2 ++ y) = (P1 ++ item) ++ q :: P2 := by
    simpa [List.append_assoc] using h
  have hr := remainder_eq_of_not_mem q (Q2 ++ y) P2
    (by simp only [List.mem_append, not_or]; exact ⟨hQ2, hy⟩) hP2 _ _ h'
  exact hne ⟨y, hr⟩

/-! ## The image prompt -/

/-- C13: for every item name the image prompt is the gym sentence around the
item when `is_exercise` is truthy and the food sentence around it otherwise; it
holds the item name and the framing chosen, and never the other framing of the
item. -/
theorem image_prompt_uses_one_framing (item : JSString) (is_exercise : JSValue) :
    (is_exercise.toBoolean = true →
      ∃ prompt, imagePrompt (.string item) is_exercise = .ok prompt ∧
        prompt = utf16 "High-quality, realistic photo of " ++ gymFraming item ++
          utf16 ". Clear form, no text." ∧
        includes prompt item = true ∧ includes prompt (gymFraming item) = true ∧
        includes prompt (foodFraming item) = false) ∧
      (is_exercise.toBoolean = false →
        ∃ prompt, imagePrompt (.string item) is_exercise = .ok prompt ∧
          prompt = utf16 "High-quality " ++ foodFraming item ++
            utf16 ". Studio lighting, close-up, no text." ∧
          includes prompt item = true ∧ includes prompt (foodFraming item) = true ∧
          includes prompt (gymFraming item) = false) := by
  constructor
  · intro h
    have e1 : utf16 "High-quality, realistic photo of a person performing a \""
        = utf16 "High-quality, realistic photo of " ++ utf16 "a person performing a \"" := by
      decide
    have e2 : utf16 "\" in a modern gym. Clear form, no text."
        = utf16 "\" in a modern gym" ++ utf16 ". Clear form, no text." := by decide
    have e3 : utf16 "\" in a modern gym" ++ utf16 ". Clear form, no text."
        = 34 :: utf16 " in a modern gym. Clear form, no text." := by decide
    have e4 : utf16 "\" meal" = 34 :: utf16 " meal" := by decide
    refine ⟨_, ?_, rfl, ?_, ?_, ?_⟩
    · simp only [imagePrompt, h, if_true, JSValue.toString, template, gymFraming, e1, e2,
        List.append_assoc, List.append_nil]
    · rw [includes_eq_true_iff, gymFraming]
      simp only [List.append_assoc]
      exact infix_later _ _ _ (infix_later _ _ _ (infix_here _ _))
    · rw [includes_eq_true_iff]
      exact List.infix_append _ _ _
    · rw [includes_eq_false_iff, foodFraming, gymFraming, e4]
      have := not_infix_of_remainder 34
        (utf16 "High-quality, realistic photo of a person performing a \"")
        (utf16 " in a modern gym. Clear form, no text.")
        (utf16 "food photography of a \"") (utf16 " meal") item
        (by decide) (by decide) (by decide) (by decide)
      simpa only [e1, e2, e3, List.append_assoc, List.append_nil, List.cons_append,
        List.nil_append] using this
  · intro h
    have e1 : utf16 "High-quality food photography of a \""
        = utf16 "High-quality " ++ utf16 "food photography of a \"" := by decide
    have e2 : utf16 "\" meal. Studio lighting, close-up, no text."
        = utf16 "\" meal" ++ utf16 ". Studio lighting, close-up, no text." := by decide
    have e3 : utf16 "\" meal" ++ utf16 ". Studio lighting, close-up, no text."
        = 34 :: utf16 " meal. Studio lighting, close-up, no text." := by decide
    have e4 : utf16 "\" in a modern gym" = 34 :: utf16 " in a modern gym" := by decide
    refine ⟨_, ?_, rfl, ?_, ?_, ?_⟩
    · simp only [imagePrompt, h, Bool.false_eq_true, if_false, JSValue.toString, template,
        foodFraming, e1, e2, List.append_assoc, List.append_nil]
    · rw [includes_eq_true_iff, foodFraming]
      simp only [List.append_assoc]
      exact infix_later _ _ _ (infix_later _ _ _ (infix_here _ _))
    · rw [includes_eq_true_iff]
      exact List.infix_append _ _ _
    · rw [includes_eq_false_iff, gymFraming, foodFraming, e4]
      have := not_infix_of_remainder 34
        (utf16 "High-quality food photography of a \"")
        (utf16 " meal. Studio lighting, close-up, no text.")
        (utf16 "a person performing a \"") (utf16 " in a modern gym") item
        (by decide) (by decide) (by decide) (by decide)
      simpa only [e1, e2, e3, List.append_assoc, List.append_nil, List.cons_append,
        List.nil_append] using this

/-- Witness of C13: an exercise and a meal. -/
theorem image_prompt_uses_one_framing_witness :
    (∃ prompt, imagePrompt (.string (utf16 "Squat")) (.bool true) = .ok prompt ∧
        prompt = utf16 "High-quality, realistic photo of " ++ gymFraming (utf16 "Squat") ++
          utf16 ". Clear form, no text." ∧
        includes prompt (utf16 "Squat") = true ∧
        includes prompt (gymFraming (utf16 "Squat")) = true ∧
        includes prompt (foodFraming (utf16 "Squat")) = false) ∧
      (∃ prompt, imagePrompt (.string (utf16 "Dal")) (.bool false) = .ok prompt ∧
        prompt = utf16 "High-quality " ++ foodFraming (utf16 "Dal") ++
          utf16 ". Studio lighting, close-up, no text." ∧
        includes prompt (utf16 "Dal") = true ∧
        includes prompt (foodFraming (utf16 "Dal")) = true ∧
        includes prompt (gymFraming (utf16 "Dal")) = false) :=
  ⟨(image_prompt_uses_one_framing (utf16 "Squat") (.bool true)).1 rfl,
   (image_prompt_uses_one_framing (utf16 "Dal") (.bool false)).2 rfl⟩

/-! ## The plan prompt -/

theorem toString_of_isPrimitive (v : JSValue) (h : v.isPrimitive = true) :
    v.toString = .ok (textOf v) := by
  cases v with
  | bool b => cases b <;> rfl
  | array es => cases h
  | object ms => cases h
  | _ => rfl

theorem isProfile_spec (input : JSValue) (hp : isProfile input = true) :
    input.isNullish = false ∧
      ∀ k ∈ requiredKeys ++ optionalKeys, (input.prop (utf16 k)).isPrimitive = true := by
  cases input with
  | object ms =>
    refine ⟨rfl, ?_⟩
    simpa only [isProfile, List.all_eq_true] using hp
  | _ => cases hp

theorem hole_of_isPrimitive (input : JSValue) (k : String) (hn : input.isNullish = false)
    (h : (input.prop (utf16 k)).isPrimitive = true) :
    hole input k = .ok (textOf (input.prop (utf16 k))) := by
  simp only [hole, hn, Bool.false_eq_true, if_false, toString_of_isPrimitive _ h]

theorem holeOr_of_isPrimitive (input : JSValue) (k d : String) (hn : input.isNullish = false)
    (h : (input.prop (utf16 k)).isPrimitive = true) :
    holeOr input k d = .ok (textOr (input.prop (utf16 k)) d) := by
  cases hb : (input.prop (utf16 k)).toBoolean with
  | true =>
    simp only [holeOr, hn, hb, Bool.false_eq_true, if_false, if_true, textOr,
      toString_of_isPrimitive _ h]
  | false => simp only [holeOr, hn, hb, Bool.false_eq_true, if_false, textOr]

/-- The texts of the prompt of a profile, in order. -/
theorem createPlanPrompt_of_isProfile (input : JSValue) (hp : isProfile input = true) :
    createPlanPrompt input = .ok
      [promptOpening, textOf (input.prop (utf16 "goal")),
       utf16 ", Level: ", textOf (input.prop (utf16 "level")),
       utf16 ", Location: ", textOf (input.prop (utf16 "location")),
       utf16 ", Diet: ", textOf (input.prop (utf16 "diet")),
       utf16 ", Age: ", textOf (input.prop (utf16 "age")),
       utf16 ", Gender: ", textOr (input.prop (utf16 "gender")) "N/A",
       utf16 ", Height: ", textOr (input.prop (utf16 "height")) "N/A",
       utf16 "cm, Weight: ", textOr (input.prop (utf16 "weight")) "N/A",
       utf16 "kg, Medical History: ", textOr (input.prop (utf16 "medicalHistory")) "None",
       utf16 ", Stress Level: ", textOr (input.prop (utf16 "stressLevel")) "N/A",
       promptClosing].flatten := by
  obtain ⟨hn, hk⟩ := isProfile_spec input hp
  have key : ∀ k ∈ requiredKeys ++ optionalKeys,
      (input.prop (utf16 k)).isPrimitive = true := hk
  simp only [createPlanPrompt,
    hole_of_isPrimitive input "goal" hn (key "goal" (by decide)),
    hole_of_isPrimitive input "level" hn (key "level" (by decide)),
    hole_of_isPrimitive input "location" hn (key "location" (by decide)),
    hole_of_isPrimitive input "diet" hn (key "diet" (by decide)),
    hole_of_isPrimitive input "age" hn (key "age" (by decide)),
    holeOr_of_isPrimitive input "gender" "N/A" hn (key "gender" (by decide)),
    holeOr_of_isPrimitive input "height" "N/A" hn (key "height" (by decide)),
    holeOr_of_isPrimitive input "weight" "N/A" hn (key "weight" (by decide)),
    holeOr_of_isPrimitive input "medicalHistory" "None" hn (key "medicalHistory" (by decide)),
    holeOr_of_isPrimitive input "stressLevel" "N/A" hn (key "stressLevel" (by decide))]
  rfl

theorem textOr_of_falsy (v : JSValue) (d : String) (h : v.toBoolean = false) :
    textOr v d = utf16 d := by
  simp only [textOr, h, Bool.false_eq_true, if_false]

theorem textOr_of_truthy (v : JSValue) (d : String) (h : v.toBoolean = true) :
    textOr v d = textOf v := by
  simp only [textOr, h, if_true]

/-- C11: `createPlanPrompt` returns a string for every profile; when gender,
height, weight, medical history and stress level are absent, empty or otherwise
falsy, the string is not empty and holds the five placeholders. -/
theorem prompt_total_with_placeholders (input : JSValue) (hp : isProfile input = true)
    (hopt : ∀ k ∈ optionalKeys, (input.prop (utf16 k)).toBoolean = false) :
    ∃ prompt, createPlanPrompt input = .ok prompt ∧ prompt ≠ [] ∧
      includes prompt (utf16 "Gender: N/A") = true ∧
      includes prompt (utf16 "Height: N/Acm") = true ∧
      includes prompt (utf16 "Weight: N/Akg") = true ∧
      includes prompt (utf16 "Medical History: None") = true ∧
      includes prompt (utf16 "Stress Level: N/A") = true := by
  have h := createPlanPrompt_of_isProfile input hp
  rw [textOr_of_falsy _ "N/A" (hopt "gender" (by decide)),
    textOr_of_falsy _ "N/A" (hopt "height" (by decide)),
    textOr_of_falsy _ "N/A" (hopt "weight" (by decide)),
    textOr_of_falsy _ "None" (hopt "medicalHistory" (by decide)),
    textOr_of_falsy _ "N/A" (hopt "stressLevel" (by decide))] at h
  have hg : includes
      [promptOpening, textOf (input.prop (utf16 "goal")),
       utf16 ", Level: ", textOf (input.prop (utf16 "level")),
       utf16 ", Location: ", textOf (input.prop (utf16 "location")),
       utf16 ", Diet: ", textOf (input.prop (utf16 "diet")),
       utf16 ", Age: ", textOf (input.prop (utf16 "age")),
       utf16 ", Gender: ", utf16 "N/A", utf16 ", Height: ", utf16 "N/A",
       utf16 "cm, Weight: ", utf16 "N/A", utf16 "kg, Medical History: ", utf16 "None",
       utf16 ", Stress Level: ", utf16 "N/A", promptClosing].flatten
      (utf16 "Gender: N/A") = true := by
    rw [includes_eq_true_iff]
    simp only [List.flatten_cons, List.flatten_nil, List.append_nil]
    iterate 10 apply infix_later
    decide
  refine ⟨_, h, ?_, hg, ?_, ?_, ?_, ?_⟩
  · intro hnil
    rw [hnil] at hg
    exact absurd hg (by decide)
  all_goals
    rw [includes_eq_true_iff]
    simp only [List.flatten_cons, List.flatten_nil, List.append_nil]
    iterate 10 apply infix_later
    decide

/-- Witness of C11: a profile with the five required attributes, an empty
gender and no other optional attribute. -/
theorem prompt_total_with_placeholders_witness :
    ∃ prompt,
      createPlanPrompt (.object [(utf16 "goal", .string (utf16 "Weight Loss")),
        (utf16 "level", .string (utf16 "Beginner")), (utf16 "location", .string (utf16 "Home")),
        (utf16 "diet", .string (utf16 "Veg")), (utf16 "age", .string (utf16 "41")),
        (utf16 "gender", .string (utf16 ""))]) = .ok prompt ∧ prompt ≠ [] ∧
      includes prompt (utf16 "Gender: N/A") = true ∧
      includes prompt (utf16 "Height: N/Acm") = true ∧
      includes prompt (utf16 "Weight: N/Akg") = true ∧
      includes prompt (utf16 "Medical History: None") = true ∧
      includes prompt (utf16 "Stress Level: N/A") = true :=
  prompt_total_with_placeholders _ (by rfl) (by decide)

/-- C12: the prompt of a profile holds the textual form of goal, level,
location, diet and age, the textual form of every optional attribute that is
truthy (supplied and not empty), and the instruction that the response must be
a single valid JSON object adhering to the schema. -/
theorem prompt_holds_profile_and_instruction (input : JSValue) (hp : isProfile input = true) :
    ∃ prompt, createPlanPrompt input = .ok prompt ∧
      (∀ k ∈ requiredKeys, ∃ t, (input.prop (utf16 k)).toString = .ok t ∧
        includes prompt t = true) ∧
      (∀ k ∈ optionalKeys, (input.prop (utf16 k)).toBoolean = true →
        ∃ t, (input.prop (utf16 k)).toString = .ok t ∧ includes prompt t = true) ∧
      includes prompt schemaInstruction = true := by
  obtain ⟨_, hk⟩ := isProfile_spec input hp
  have hinstr : schemaInstruction <:+: promptClosing := by decide
  refine ⟨_, createPlanPrompt_of_isProfile input hp, ?_, ?_, ?_⟩
  · intro k hmem
    refine ⟨textOf (input.prop (utf16 k)),
      toString_of_isPrimitive _ (hk k (List.mem_append_left _ hmem)), ?_⟩
    rw [includes_eq_true_iff]
    simp only [List.flatten_cons, List.flatten_nil, List.append_nil]
    simp only [requiredKeys, List.mem_cons, List.mem_singleton, List.not_mem_nil,
      or_false] at hmem
    rcases hmem with rfl | rfl | rfl | rfl | rfl <;>
      repeat (first | exact infix_here _ _ | apply infix_later)
  · intro k hmem hb
    refine ⟨textOf (input.prop (utf16 k)),
      toString_of_isPrimitive _ (hk k (List.mem_append_right _ hmem)), ?_⟩
    rw [includes_eq_true_iff]
    simp only [List.flatten_cons, List.flatten_nil, List.append_nil]
    simp only [optionalKeys, List.mem_cons, List.mem_singleton, List.not_mem_nil,
      or_false] at hmem
    rcases hmem with rfl | rfl | rfl | rfl | rfl <;>
      (first
        | rw [textOr_of_truthy _ "N/A" hb]
        | rw [textOr_of_truthy _ "None" hb]) <;>
      repeat (first | exact infix_here _ _ | apply infix_later)
  · rw [includes_eq_true_iff]
    simp only [List.flatten_cons, List.flatten_nil, List.append_nil]
    repeat (first | exact hinstr | apply infix_later)

/-- Witness of C12, the first end-to-end scenario: the prompt of the profile
`Muscle Gain`, `Intermediate`, `Gym`, `Non-Veg`, 30 holds the five values. -/
theorem prompt_holds_profile_and_instruction_witness :
    ∃ prompt,
      createPlanPrompt (.object [(utf16 "goal", .string (utf16 "Muscle Gain")),
        (utf16 "level", .string (utf16 "Intermediate")),
        (utf16 "location", .string (utf16 "Gym")), (utf16 "diet", .string (utf16 "Non-Veg")),
        (utf16 "age", .number (utf16 "30"))]) = .ok prompt ∧
      includes prompt (utf16 "Muscle Gain") = true ∧
      includes prompt (utf16 "Intermediate") = true ∧
      includes prompt (utf16 "Gym") = true ∧
      includes prompt (utf16 "Non-Veg") = true ∧
      includes prompt (utf16 "30") = true ∧
      includes prompt schemaInstruction = true := by
  obtain ⟨prompt, h, hreq, _, hi⟩ := prompt_holds_profile_and_instruction
    (.object [(utf16 "goal", .string (utf16 "Muscle Gain")),
      (utf16 "level", .string (utf16 "Intermediate")),
      (utf16 "location", .string (utf16 "Gym")), (utf16 "diet", .string (utf16 "Non-Veg")),
      (utf16 "age", .number (utf16 "30"))]) (by rfl)
  refine ⟨prompt, h, ?_, ?_, ?_, ?_, ?_, hi⟩
  · obtain ⟨t, ht, hinc⟩ := hreq "goal" (by decide)
    cases ht
    exact hinc
  · obtain ⟨t, ht, hinc⟩ := hreq "level" (by decide)
    cases ht
    exact hinc
  · obtain ⟨t, ht, hinc⟩ := hreq "location" (by decide)
    cases ht
    exact hinc
  · obtain ⟨t, ht, hinc⟩ := hreq "diet" (by decide)
    cases ht
    exact hinc
  · obtain ⟨t, ht, hinc⟩ := hreq "age" (by decide)
    cases ht
    exact hinc

end FitnessPlan
